import Mathlib

/-!
Verification of the covenant asynchronous chunk-generation engine.

This file shallowly embeds the parts of the Python code base that the
specification talks about:

* `src/async_world/messages.py`    (message types and the bounded bus)
* `src/async_world/spiral_generator.py` (spiral chunk ordering and deltas)
* `src/world/pipeline.py`          (generation pipeline and data)
* `src/world/layers/lands_and_seas/layer.py` and
  `src/world/layers/zoom/layer.py` (terrain layers)
* `src/world/dual_chunk_system.py` (render / generation chunk arithmetic)
* `src/async_world/worker.py`      (render chunk generation, worker cache)
* `src/async_world/manager.py`     (tile reads, chunk requests, caches)

Conventions used by the embedding:

* Python `dict`s (all of which are keyed by plain tuples here) are
  association lists `List (k × v)`; insertion preserves the position of an
  existing key and appends a fresh key, exactly like `dict` /
  `OrderedDict` insertion order.
* Python sets are lists used only through membership; `set.add` appends
  when absent.
* Python floor division `//` and `math.floor(a / b)` on ints are `Int.fdiv`
  (true floor division) or `Nat` division for non-negative sizes.
* Python floats that only ever hold probabilities are modelled as `ℚ`.
* Python's salted string `hash` and the Mersenne-Twister stream behind
  `random.Random` cannot be translated; they enter as explicit function
  parameters, and every theorem proved here is independent of their values
  unless it instantiates them concretely.
* `queue.PriorityQueue.put` is an append of a `(rank, message)` pair; a
  blocking put on a full queue is the `none` outcome of an `Option` result,
  a non-blocking put on a full queue drops the message (`except` branch in
  the source prints and returns).
-/

namespace Covenant

/-! ### Association lists (Python dicts keyed by tuples) -/

section AList

variable {K : Type} [DecidableEq K] {V : Type}

/-- `d.get(k)` on a Python dict represented as an association list. -/
def alookup : List (K × V) → K → Option V
  | [], _ => none
  | (k, v) :: rest, key => if key = k then some v else alookup rest key

/-- `d[k] = v` on a Python dict: replace in place if the key exists
(keeping its position, as `dict` / `OrderedDict` do), else append. -/
def ainsert : List (K × V) → K → V → List (K × V)
  | [], key, v => [(key, v)]
  | (k, w) :: rest, key, v =>
    if key = k then (k, v) :: rest else (k, w) :: ainsert rest key v

/-- `k in d` on a Python dict. -/
def akeyMem (l : List (K × V)) (key : K) : Prop := (alookup l key).isSome

instance (l : List (K × V)) (key : K) : Decidable (akeyMem l key) := by
  unfold akeyMem; infer_instance

/-- `del d[k]` / key removal (used for cache eviction by key). -/
def aerase (l : List (K × V)) (key : K) : List (K × V) :=
  l.filter (fun kv => kv.1 ≠ key)

end AList

/-! ### Integer ranges (Python `range`) -/

/-- `range(a, b + 1)` as a list of `Int`, ascending and inclusive. -/
def intRangeAsc (a b : Int) : List Int :=
  (List.range (b + 1 - a).toNat).map (fun (i : Nat) => a + (i : Int))

/-- `range(a, b - 1, -1)` as a list of `Int`, descending from `a` down to
`b` inclusive. -/
def intRangeDesc (a b : Int) : List Int :=
  (List.range (a + 1 - b).toNat).map (fun (i : Nat) => a - (i : Int))

/-! ### `src/async_world/messages.py` -/


/-- `MessageType` enum. -/
inductive MessageType where
  | chunk_request
  | chunk_response
  | chunk_cancel
  | status_update
  | shutdown_signal
  deriving DecidableEq, Repr

/-- `Priority` enum (LOW=1 … URGENT=4). -/
inductive Priority where
  | low
  | normal
  | high
  | urgent
  deriving DecidableEq, Repr

/-- `ChunkRequest` dataclass.  `request_id` is filled in by
`__post_init__` when absent; `Message.chunk_request` always leaves it
absent, so the deterministic id is used. -/
structure ChunkRequest where
  chunk_x : Int
  chunk_y : Int
  priority : Priority
  request_id : String
  deriving DecidableEq, Repr

/-- The deterministic request id from `ChunkRequest.__post_init__`. -/
def chunkRequestId (cx cy : Int) : String := s!"chunk_{cx}_{cy}"

/-- The `chunk_data` dict carried by a successful worker reply: the
serialisable render-chunk dict built in `worker._handle_chunk_request`.
The manager only accepts a dict that has an `aggregated_tiles` key;
`none` stands for any other payload (the `isinstance`/key check failing). -/
structure WorkerChunkData where
  chunk_x : Int
  chunk_y : Int
  chunk_size : Nat
  aggregated_tiles : List ((Int × Int) × String)
  deriving DecidableEq, Repr

/-- `ChunkResponse` dataclass (`generation_time` is wall-clock noise and
is not modelled). -/
structure ChunkResponse where
  chunk_x : Int
  chunk_y : Int
  chunk_data : Option WorkerChunkData
  request_id : String
  success : Bool
  error_message : Option String
  deriving DecidableEq, Repr

/-- `ChunkCancel` dataclass. -/
structure ChunkCancel where
  chunk_x : Int
  chunk_y : Int
  request_id : String
  deriving DecidableEq, Repr

/-- `StatusUpdate` dataclass. -/
structure StatusUpdate where
  message : String
  worker_id : String
  chunks_in_queue : Nat
  chunks_generated : Nat
  cache_size : Nat
  deriving DecidableEq, Repr

/-- The possible `payload` values of a `Message`. -/
inductive MessagePayload where
  | request (r : ChunkRequest)
  | response (r : ChunkResponse)
  | cancel (c : ChunkCancel)
  | status (s : StatusUpdate)
  | shutdown_reason (reason : String)
  deriving DecidableEq, Repr

/-- `Message` wrapper (the wall-clock `timestamp` is not modelled; it is
used only as a tie-breaker inside the priority queue, whose drain order
no modelled claim depends on). -/
structure Message where
  message_type : MessageType
  payload : MessagePayload
  sender : String
  deriving DecidableEq, Repr

/-- `Message.chunk_request` classmethod. -/
def Message.chunkRequestMsg (cx cy : Int) (priority : Priority) : Message :=
  { message_type := MessageType.chunk_request
    payload := MessagePayload.request
      { chunk_x := cx, chunk_y := cy, priority := priority
        request_id := chunkRequestId cx cy }
    sender := "main" }

/-- `MessageBus._get_message_priority` (lower = more urgent). -/
def getMessagePriority (m : Message) : Nat :=
  match m.message_type with
  | MessageType.shutdown_signal => 0
  | MessageType.chunk_cancel => 1
  | MessageType.chunk_request =>
    match m.payload with
    | MessagePayload.request r =>
      match r.priority with
      | Priority.urgent => 2
      | Priority.high => 3
      | Priority.normal => 4
      | Priority.low => 5
    | _ => 4
  | _ => 6

/-- `MessageBus`: two bounded queues plus counters.  The priority queue
holds `(rank, message)` pairs; `put` appends (heap order is internal and
only observable through `get`, which no claim in this file depends on). -/
structure MessageBus where
  to_worker : List (Nat × Message)
  to_main : List Message
  max_queue_size : Nat
  messages_sent : Nat
  messages_received : Nat
  deriving DecidableEq, Repr

/-- `MessageBus(max_queue_size=1000)`. -/
def mkMessageBus (maxQueueSize : Nat := 1000) : MessageBus :=
  { to_worker := [], to_main := [], max_queue_size := maxQueueSize
    messages_sent := 0, messages_received := 0 }

/-- The `block` parameter default of `MessageBus.send_to_worker` and
`MessageBus.send_to_main` in the source (`block: bool = True`). -/
def sendDefaultBlock : Bool := true

/-- `MessageBus.send_to_worker`.  `none` means the call blocks forever
(`put(block=True)` on a full queue with no timeout); `some bus` is a
normal return.  With `block=False` a full queue raises `queue.Full`,
which the `except` clause swallows after printing, so the message is
dropped and the bus is unchanged. -/
def sendToWorker (bus : MessageBus) (m : Message) (block : Bool) : Option MessageBus :=
  if bus.to_worker.length < bus.max_queue_size then
    some { bus with
      to_worker := bus.to_worker ++ [(getMessagePriority m, m)]
      messages_sent := bus.messages_sent + 1 }
  else if block then none
  else some bus

/-- `MessageBus.send_to_main` (same outcome conventions). -/
def sendToMain (bus : MessageBus) (m : Message) (block : Bool) : Option MessageBus :=
  if bus.to_main.length < bus.max_queue_size then
    some { bus with
      to_main := bus.to_main ++ [m]
      messages_sent := bus.messages_sent + 1 }
  else if block then none
  else some bus

/-- Non-blocking send as used by the manager and worker
(`send_to_worker(msg, block=False)`); never blocks, so the `Option`
never matters — `sendToWorker _ _ false` is always `some`. -/
def sendToWorkerNB (bus : MessageBus) (m : Message) : MessageBus :=
  (sendToWorker bus m false).getD bus

/-- Non-blocking `send_to_main(msg, block=False)`. -/
def sendToMainNB (bus : MessageBus) (m : Message) : MessageBus :=
  (sendToMain bus m false).getD bus

/-! ### `src/async_world/spiral_generator.py` -/

/-- `SpiralChunkGenerator._distance_squared` (used as a sort key; the
spec compares *Euclidean* distance, which orders identically). -/
def distanceSquared (x y : Int) : Int := x * x + y * y

/-- Sort key order on offset pairs used by `list.sort(key=...)`. -/
def distLe (p q : Int × Int) : Prop :=
  distanceSquared p.1 p.2 ≤ distanceSquared q.1 q.2

instance : DecidableRel distLe := fun p q =>
  inferInstanceAs (Decidable (distanceSquared p.1 p.2 ≤ distanceSquared q.1 q.2))

instance : IsTotal (Int × Int) distLe :=
  ⟨fun p q => le_total (distanceSquared p.1 p.2) (distanceSquared q.1 q.2)⟩

instance : IsTrans (Int × Int) distLe :=
  ⟨fun _ _ _ h1 h2 => le_trans h1 h2⟩

/-- Python `list.sort(key=...)` is a stable sort by the key; insertion
sort by the same total preorder is stable and therefore produces the
same list. -/
def sortByDist (l : List (Int × Int)) : List (Int × Int) :=
  List.insertionSort distLe l

/-- `SpiralChunkGenerator._generate_layer_offsets`: the square ring at
Chebyshev radius `layer`, edge by edge. -/
def generateLayerOffsets (layer : Int) : List (Int × Int) :=
  ((intRangeAsc (-layer) layer).map (fun x => (x, -layer))) ++
  ((intRangeAsc (-layer + 1) (layer - 1)).map (fun y => (layer, y))) ++
  (if layer > 0 then (intRangeDesc layer (-layer)).map (fun x => (x, layer)) else []) ++
  ((intRangeDesc (layer - 1) (-layer + 1)).map (fun y => (-layer, y)))

/-- `SpiralChunkGenerator._generate_spiral_offsets`: centre first, then
each ring sorted by squared distance. -/
def generateSpiralOffsets (radius : Int) : List (Int × Int) :=
  if radius ≤ 0 then [(0, 0)]
  else (0, 0) :: ((intRangeAsc 1 radius).map (fun layer =>
    sortByDist (generateLayerOffsets layer))).flatten

/-- `SpiralChunkGenerator.generate_spiral` (the per-radius offset cache
is transparent: it stores exactly `generateSpiralOffsets radius`). -/
def generateSpiral (centerX centerY radius : Int) : List (Int × Int) :=
  (generateSpiralOffsets radius).map (fun o => (centerX + o.1, centerY + o.2))

/-- `SpiralChunkGenerator.get_new_chunks_for_movement`.  The Python code
forms `set(new) - set(old)` and sorts it by squared distance from the
new centre; set iteration order is unspecified, so the difference is
realised as a filter of the (same-membership) spiral list before the
sort.  Only membership of the result is specified or proved. -/
def getNewChunksForMovement (oldCenter newCenter : Int × Int) (radius : Int) :
    List (Int × Int) :=
  if oldCenter = newCenter then []
  else
    List.insertionSort
      (fun a b =>
        distanceSquared (a.1 - newCenter.1) (a.2 - newCenter.2) ≤
        distanceSquared (b.1 - newCenter.1) (b.2 - newCenter.2))
      ((generateSpiral newCenter.1 newCenter.2 radius).filter
        (fun c => decide (c ∉ generateSpiral oldCenter.1 oldCenter.2 radius)))

/-- `SpiralChunkGenerator.get_chunks_to_unload`. -/
def getChunksToUnload (oldCenter newCenter : Int × Int)
    (radius unloadRadius : Int) : List (Int × Int) :=
  if oldCenter = newCenter then []
  else
    (generateSpiral oldCenter.1 oldCenter.2 radius).filter
      (fun c => decide (c ∉ generateSpiral newCenter.1 newCenter.2 unloadRadius))

/-- Python `set.add` on the list model of a set. -/
def setAdd (l : List (Int × Int)) (c : Int × Int) : List (Int × Int) :=
  if c ∈ l then l else l ++ [c]

/-- Python `set.discard`. -/
def setDiscard (l : List (Int × Int)) (c : Int × Int) : List (Int × Int) :=
  l.filter (fun x => x ≠ c)

/-- `ChunkLoadingManager` state. -/
structure ChunkLoadingManager where
  load_radius : Int
  unload_radius : Int
  current_center_chunk : Int × Int
  loaded_chunks : List (Int × Int)
  deriving DecidableEq, Repr

/-- `ChunkLoadingManager(load_radius=3, unload_radius=5)`. -/
def mkChunkLoadingManager (loadRadius : Int := 3) (unloadRadius : Int := 5) :
    ChunkLoadingManager :=
  { load_radius := loadRadius, unload_radius := unloadRadius
    current_center_chunk := (0, 0), loaded_chunks := [] }

/-- `ChunkLoadingManager.update_for_position`: returns
`(chunks_to_generate, chunks_to_unload)` and the updated manager. -/
def updateForPosition (m : ChunkLoadingManager) (newCenter : Int × Int) :
    (List (Int × Int) × List (Int × Int)) × ChunkLoadingManager :=
  let oldCenter := m.current_center_chunk
  let newChunks := getNewChunksForMovement oldCenter newCenter m.load_radius
  let unloadChunks := getChunksToUnload oldCenter newCenter m.load_radius m.unload_radius
  let loaded1 := unloadChunks.foldl setDiscard m.loaded_chunks
  let loaded2 := newChunks.foldl setAdd loaded1
  ((newChunks, unloadChunks),
   { m with current_center_chunk := newCenter, loaded_chunks := loaded2 })

/-- `ChunkLoadingManager.get_initial_chunks`. -/
def getInitialChunks (m : ChunkLoadingManager) (centerChunk : Int × Int) :
    List (Int × Int) × ChunkLoadingManager :=
  let chunks := generateSpiral centerChunk.1 centerChunk.2 m.load_radius
  (chunks, { m with current_center_chunk := centerChunk, loaded_chunks := chunks })

/-- `ChunkLoadingManager.get_generation_priority` returns
`sqrt(dx² + dy²)`; the manager only ever compares it against the integer
thresholds 1.0 and 2.0, and `sqrt(n) ≤ k ⟺ n ≤ k²` for integers, so the
squared distance is the faithful observable. -/
def getGenerationPrioritySq (m : ChunkLoadingManager) (chunk : Int × Int) : Int :=
  distanceSquared (chunk.1 - m.current_center_chunk.1)
    (chunk.2 - m.current_center_chunk.2)

/-- Chebyshev distance from a centre (the ring number of the spiral). -/
def chebFrom (c p : Int × Int) : Int := max |p.1 - c.1| |p.2 - c.2|

/-- Squared Euclidean distance from a centre. -/
def euclidSqFrom (c p : Int × Int) : Int :=
  distanceSquared (p.1 - c.1) (p.2 - c.2)

/-- The specification's spiral-ordering predicate as a checker: is the
list sorted by non-decreasing Euclidean distance from the centre?
(Euclidean distance and its square order pairs identically.) -/
def euclidSortedFromChk (c : Int × Int) : List (Int × Int) → Bool
  | [] => true
  | [_] => true
  | p :: q :: rest =>
    decide (euclidSqFrom c p ≤ euclidSqFrom c q) &&
    euclidSortedFromChk c (q :: rest)

/-! ### `src/world/pipeline.py` -/

/-- One chunk entry of `GenerationData.chunks`: the heterogeneous Python
dict is a record whose optional fields mirror the keys that the
modelled layers read and write (`dict.get(key, default)` becomes
`Option.getD`). -/
structure ChunkEntry where
  chunk_x : Int
  chunk_y : Int
  chunk_size : Nat
  land_type : Option String
  parent_chunk_x : Option Int
  parent_chunk_y : Option Int
  subdivision_level : Option Nat
  original_chunk_size : Option Nat
  deriving DecidableEq, Repr

/-- Chunk bounds `(min_chunk_x, min_chunk_y, max_chunk_x, max_chunk_y)`. -/
abbrev Bounds := Int × Int × Int × Int

/-- `GenerationData` dataclass of `src/world/pipeline.py`.  The three
multi-scale sample maps and `custom_data` are never read or written by
the layers modelled here, so their values are unit. -/
structure GenerationData where
  seed : Int
  chunk_size : Nat
  continental_samples : List ((Int × Int) × Unit)
  regional_samples : List ((Int × Int) × Unit)
  local_samples : List ((Int × Int) × Unit)
  chunks : List ((Int × Int) × ChunkEntry)
  processed_layers : List String
  custom_data : List (String × Unit)
  deriving DecidableEq, Repr

/-- A fresh `GenerationData` with every collection empty. -/
def mkGenerationData (seed : Int) (chunkSize : Nat) : GenerationData :=
  { seed := seed, chunk_size := chunkSize
    continental_samples := [], regional_samples := [], local_samples := []
    chunks := [], processed_layers := [], custom_data := [] }

/-- `GenerationData.set_chunk_property(cx, cy, 'land_type', v)`: create
the chunk with its basic properties if missing, then set the property. -/
def setChunkLandType (d : GenerationData) (cx cy : Int) (v : String) :
    GenerationData :=
  let base :=
    match alookup d.chunks (cx, cy) with
    | some c => c
    | none =>
      { chunk_x := cx, chunk_y := cy, chunk_size := d.chunk_size
        land_type := none, parent_chunk_x := none, parent_chunk_y := none
        subdivision_level := none, original_chunk_size := none }
  { d with chunks := ainsert d.chunks (cx, cy) { base with land_type := some v } }

/-- `GenerationLayer` interface: a name plus a `process` function.  The
constructor also seeds a `random.Random`; every modelled layer re-seeds
before use, so the initial RNG state is irrelevant. -/
structure GenerationLayer where
  name : String
  process : GenerationData → Bounds → GenerationData

/-- `GenerationPipeline` of `src/world/pipeline.py`. -/
structure GenerationPipeline where
  name : String
  layers : List GenerationLayer

/-- `GenerationPipeline.__init__(name)`: the constructor only stores the
name and an empty layer list; no code path in it can raise, hence the
result is always `Except.ok`. -/
def mkGenerationPipeline (name : String) : Except String GenerationPipeline :=
  Except.ok { name := name, layers := [] }

/-- `GenerationPipeline.add_layer`. -/
def GenerationPipeline.addLayer (p : GenerationPipeline) (l : GenerationLayer) :
    GenerationPipeline :=
  { p with layers := p.layers ++ [l] }

/-- `GenerationPipeline.process`: raises `RuntimeError` when no layers
are configured, otherwise folds the layers over the data, recording
each layer name. -/
def GenerationPipeline.process (p : GenerationPipeline) (data : GenerationData)
    (bounds : Bounds) : Except String GenerationData :=
  if p.layers.isEmpty then
    Except.error ("Pipeline " ++ p.name ++ " has no layers configured - cannot generate terrain")
  else
    Except.ok (p.layers.foldl
      (fun d l =>
        let d2 := l.process d bounds
        if l.name ∈ d2.processed_layers then d2
        else { d2 with processed_layers := d2.processed_layers ++ [l.name] })
      data)

/-! ### `src/world/layers/lands_and_seas/layer.py` -/

/-- `LandsAndSeasLayer.process`.

`_determine_land_type(seed, cx, cy)` dispatches to one of three
algorithms (`random_chunks`, `perlin_noise`, `cellular_automata`); every
one of them derives all of its randomness from `(seed, layer name,
chunk_x, chunk_y)` alone (per-chunk `_set_seed` / position-derived
seeds), so each is a pure function of the seed and the chunk
coordinate.  Python's salted `hash` and Mersenne Twister are not
translatable, so that pure function enters as the parameter `dlt`. -/
def landsAndSeasProcess (dlt : Int → Int → Int → String)
    (data : GenerationData) (bounds : Bounds) : GenerationData :=
  let (minCx, minCy, maxCx, maxCy) := bounds
  let d1 := (intRangeAsc minCx maxCx).foldl
    (fun dx cx =>
      (intRangeAsc minCy maxCy).foldl
        (fun dy cy => setChunkLandType dy cx cy (dlt dy.seed cx cy)) dx)
    data
  if "lands_and_seas" ∈ d1.processed_layers then d1
  else { d1 with processed_layers := d1.processed_layers ++ ["lands_and_seas"] }

/-- The `lands_and_seas` layer as a pipeline element. -/
def landsAndSeasLayer (dlt : Int → Int → Int → String) : GenerationLayer :=
  { name := "lands_and_seas", process := landsAndSeasProcess dlt }

/-! ### `src/world/layers/zoom/layer.py` -/

/-- The chunk map the zoom layer works on. -/
abbrev ChunkMap := List ((Int × Int) × ChunkEntry)

/-- `random.Random` as an explicit draw stream: `random()` reads the
next rational in `[0,1)` and advances. -/
structure Rng where
  stream : Nat → ℚ
  idx : Nat

/-- `self.rng.random()`. -/
def rngDraw (r : Rng) : ℚ × Rng := (r.stream r.idx, { r with idx := r.idx + 1 })

/-- `self.rng.seed(n)`: restart from the stream determined by `n`. -/
def mkRng (s : Nat → ℚ) : Rng := { stream := s, idx := 0 }

/-- The untranslatable primitives the zoom layer draws on: the
Mersenne-Twister stream for a given seed, Python's salted `hash`
composites used for seeding (already reduced mod 2³²), and the
float-hash noise `_simple_fractal_noise`. -/
structure ZoomOracle where
  mt : Int → Nat → ℚ
  seedHashCA : Int → Int
  hashFractal : Int → Int → Int
  fractalNoise : Int → Int → ℚ

/-- The configuration fields `ZoomLayer.__init__` extracts (probability
floats as `ℚ`; `0.6` / `0.4` literals appear as `3/5` / `2/5`).
`preserve_islands` and `min_island_size` are loaded but feed only
`_preserve_islands_pass`, which `process` never calls. -/
structure ZoomConfig where
  subdivision_factor : Nat
  land_expansion_threshold : Nat
  erosion_probability : ℚ
  iterations : Nat
  use_multi_pass : Bool
  pass_1_iterations : Nat
  pass_1_expansion_threshold : Nat
  pass_1_erosion_probability : ℚ
  pass_2_iterations : Nat
  pass_2_expansion_threshold : Nat
  pass_2_erosion_probability : ℚ
  protect_interior : Bool
  interior_threshold : Nat
  use_moore_neighborhood : Bool
  preserve_islands : Bool
  min_island_size : Nat
  add_noise : Bool
  noise_probability : ℚ
  edge_noise_boost : Bool
  edge_noise_probability : ℚ
  fractal_perturbation : Bool
  perturbation_strength : ℚ

/-- `ZoomLayer._subdivide_chunk`. -/
def subdivideChunk (cfg : ZoomConfig) (parent : ChunkEntry) : List ChunkEntry :=
  let parentX := parent.chunk_x
  let parentY := parent.chunk_y
  let parentSize := parent.chunk_size
  let parentLand := parent.land_type.getD "water"
  let subSize0 := parentSize / cfg.subdivision_factor
  let subSize := if subSize0 < 1 then 1 else subSize0
  (List.range cfg.subdivision_factor).flatMap (fun sx =>
    (List.range cfg.subdivision_factor).map (fun sy =>
      { chunk_x := parentX * (cfg.subdivision_factor : Int) + (sx : Int)
        chunk_y := parentY * (cfg.subdivision_factor : Int) + (sy : Int)
        chunk_size := subSize
        land_type := some parentLand
        parent_chunk_x := some parentX
        parent_chunk_y := some parentY
        subdivision_level := some (parent.subdivision_level.getD 0 + 1)
        original_chunk_size := some (parent.original_chunk_size.getD parentSize) }))

/-- The Moore (8) or von Neumann (4) neighbourhood offset list. -/
def neighborhoodOffsets (useMoore : Bool) : List (Int × Int) :=
  if useMoore then
    [(-1, -1), (-1, 0), (-1, 1), (0, -1), (0, 1), (1, -1), (1, 0), (1, 1)]
  else
    [(-1, 0), (1, 0), (0, -1), (0, 1)]

/-- `ZoomLayer._count_land_neighbors` (out-of-bounds neighbours are
skipped, i.e. treated as water). -/
def countLandNeighbors (cfg : ZoomConfig) (chunks : ChunkMap) (cx cy : Int)
    (minX minY maxX maxY : Int) : Nat :=
  (neighborhoodOffsets cfg.use_moore_neighborhood).foldl
    (fun acc o =>
      let nx := cx + o.1
      let ny := cy + o.2
      if nx < minX ∨ nx > maxX ∨ ny < minY ∨ ny > maxY then acc
      else
        match alookup chunks (nx, ny) with
        | some c => if c.land_type.getD "water" = "land" then acc + 1 else acc
        | none => acc)
    0

/-- `ZoomLayer._count_total_neighbors` (neighbours inside the bounds,
whether or not a chunk exists there). -/
def countTotalNeighbors (cfg : ZoomConfig) (cx cy : Int)
    (minX minY maxX maxY : Int) : Nat :=
  (neighborhoodOffsets cfg.use_moore_neighborhood).foldl
    (fun acc o =>
      let nx := cx + o.1
      let ny := cy + o.2
      if minX ≤ nx ∧ nx ≤ maxX ∧ minY ≤ ny ∧ ny ≤ maxY then acc + 1 else acc)
    0

/-- `ZoomLayer._is_at_boundary` (always the 8-neighbour list, regardless
of `use_moore_neighborhood`, as in the source). -/
def isAtBoundary (chunks : ChunkMap) (cx cy : Int)
    (minX minY maxX maxY : Int) : Bool :=
  match alookup chunks (cx, cy) with
  | none => false
  | some cur =>
    let curLand := cur.land_type.getD "water"
    (neighborhoodOffsets true).any (fun o =>
      let nx := cx + o.1
      let ny := cy + o.2
      if minX ≤ nx ∧ nx ≤ maxX ∧ minY ≤ ny ∧ ny ≤ maxY then
        match alookup chunks (nx, ny) with
        | some c => decide (c.land_type.getD "water" ≠ curLand)
        | none => false
      else false)

/-- `ZoomLayer._apply_ca_rules` plus the erosion draw that feeds it
(the land branch always consumes one `random()` draw, even when the
erosion probability is zero). -/
def applyCaRules (cfg : ZoomConfig) (cur : String) (landN totalN : Nat)
    (expTh : Nat) (eroP : ℚ) (rng : Rng) : String × Rng :=
  if cfg.protect_interior ∧ landN = totalN ∧ totalN ≥ cfg.interior_threshold then
    ("land", rng)
  else if cur = "water" then
    (if landN ≥ expTh then "land" else cur, rng)
  else
    let (r, rng1) := rngDraw rng
    if r < eroP ∧ landN < totalN then ("water", rng1) else (cur, rng1)

/-- One scan step of `_cellular_automata_iteration` at `(cx, cy)`. -/
def caCell (cfg : ZoomConfig) (chunks : ChunkMap)
    (minX minY maxX maxY : Int) (expTh : Nat) (eroP : ℚ)
    (acc : ChunkMap × Rng) (cx cy : Int) : ChunkMap × Rng :=
  match alookup chunks (cx, cy) with
  | none => acc
  | some cur =>
    let landN := countLandNeighbors cfg chunks cx cy minX minY maxX maxY
    let totalN := countTotalNeighbors cfg cx cy minX minY maxX maxY
    let (newLT, rng1) :=
      applyCaRules cfg (cur.land_type.getD "water") landN totalN expTh eroP acc.2
    let noiseProb :=
      if cfg.edge_noise_boost ∧ isAtBoundary chunks cx cy minX minY maxX maxY then
        cfg.edge_noise_probability
      else cfg.noise_probability
    let (finalLT, rng2) :=
      if cfg.add_noise then
        let (r, rngN) := rngDraw rng1
        (if r < noiseProb then (if newLT = "water" then "land" else "water") else newLT,
         rngN)
      else (newLT, rng1)
    (ainsert acc.1 (cx, cy) { cur with land_type := some finalLT }, rng2)

/-- `ZoomLayer._cellular_automata_iteration`: synchronous update over
the whole bounds (neighbour counts read the pre-iteration map), `x`
outer and `y` inner, threading the shared RNG stream in scan order. -/
def caIteration (cfg : ZoomConfig) (chunks : ChunkMap)
    (minX minY maxX maxY : Int) (expTh : Nat) (eroP : ℚ) (rng : Rng) :
    ChunkMap × Rng :=
  (intRangeAsc minX maxX).foldl
    (fun acc cx =>
      (intRangeAsc minY maxY).foldl
        (fun acc2 cy => caCell cfg chunks minX minY maxX maxY expTh eroP acc2 cx cy)
        acc)
    (chunks, rng)

/-- `n` successive CA iterations (each reads the previous result). -/
def caIterations (cfg : ZoomConfig) (n : Nat) (chunks : ChunkMap)
    (minX minY maxX maxY : Int) (expTh : Nat) (eroP : ℚ) (rng : Rng) :
    ChunkMap × Rng :=
  match n with
  | 0 => (chunks, rng)
  | Nat.succ m =>
    let step := caIteration cfg chunks minX minY maxX maxY expTh eroP rng
    caIterations cfg m step.1 minX minY maxX maxY expTh eroP step.2

/-- `ZoomLayer._apply_fractal_perturbation`: per chunk, re-seed the
shared RNG from a position hash, draw, and possibly overwrite the land
type from the fractal noise value (`> 0.6` land, `< 0.4` water). -/
def fractalPerturbation (cfg : ZoomConfig) (oracle : ZoomOracle)
    (chunks : ChunkMap) (minX minY maxX maxY : Int) (rng : Rng) :
    ChunkMap × Rng :=
  (intRangeAsc minX maxX).foldl
    (fun acc cx =>
      (intRangeAsc minY maxY).foldl
        (fun acc2 cy =>
          match alookup chunks (cx, cy) with
          | none => acc2
          | some cur =>
            let rngA := mkRng (oracle.mt (oracle.hashFractal cx cy))
            let (r, rngB) := rngDraw rngA
            if r < cfg.perturbation_strength then
              let noiseV := oracle.fractalNoise cx cy
              let newLT :=
                if noiseV > 3/5 then "land"
                else if noiseV < 2/5 then "water"
                else cur.land_type.getD "water"
              (ainsert acc2.1 (cx, cy) { cur with land_type := some newLT }, rngB)
            else (acc2.1, rngB))
        acc)
    (chunks, rng)

/-- `ZoomLayer._apply_cellular_automata`: seed the RNG once per call
from `(seed, "zoom", "cellular_automata")`, optionally perturb, then run
the multi-pass or single-pass CA schedule. -/
def applyCellularAutomata (cfg : ZoomConfig) (oracle : ZoomOracle) (seed : Int)
    (chunks : ChunkMap) (bounds : Bounds) : ChunkMap :=
  let (minX, minY, maxX, maxY) := bounds
  let rng0 := mkRng (oracle.mt (oracle.seedHashCA seed))
  let start :=
    if cfg.fractal_perturbation then
      fractalPerturbation cfg oracle chunks minX minY maxX maxY rng0
    else (chunks, rng0)
  if cfg.use_multi_pass then
    let pass1 := caIterations cfg cfg.pass_1_iterations start.1 minX minY maxX maxY
      cfg.pass_1_expansion_threshold cfg.pass_1_erosion_probability start.2
    (caIterations cfg cfg.pass_2_iterations pass1.1 minX minY maxX maxY
      cfg.pass_2_expansion_threshold cfg.pass_2_erosion_probability pass1.2).1
  else
    (caIterations cfg cfg.iterations start.1 minX minY maxX maxY
      cfg.land_expansion_threshold cfg.erosion_probability start.2).1

/-- Minimum of a list of `Int` folded from a start value (Python `min`
over a non-empty collection, folded from its first element). -/
def intFoldMin (d : Int) (l : List Int) : Int := l.foldl min d

/-- Maximum counterpart. -/
def intFoldMax (d : Int) (l : List Int) : Int := l.foldl max d

/-- `ZoomLayer.process`. -/
def zoomProcess (cfg : ZoomConfig) (oracle : ZoomOracle)
    (data : GenerationData) (bounds : Bounds) : GenerationData :=
  let chunksToProcess := data.chunks.map (fun kv => kv.2)
  let newChunks := chunksToProcess.foldl
    (fun acc pc =>
      (subdivideChunk cfg pc).foldl
        (fun a sc => ainsert a (sc.chunk_x, sc.chunk_y) sc) acc)
    ([] : ChunkMap)
  let subBounds : Bounds :=
    match newChunks with
    | [] => bounds
    | kv :: rest =>
      let xs := (kv :: rest).map (fun p => p.1.1)
      let ys := (kv :: rest).map (fun p => p.1.2)
      (intFoldMin kv.1.1 xs, intFoldMin kv.1.2 ys,
       intFoldMax kv.1.1 xs, intFoldMax kv.1.2 ys)
  let refined := applyCellularAutomata cfg oracle data.seed newChunks subBounds
  let chunks2 := refined.foldl (fun a kv => ainsert a kv.1 kv.2) data.chunks
  let d2 : GenerationData := { data with chunks := chunks2 }
  if "zoom" ∈ d2.processed_layers then d2
  else { d2 with processed_layers := d2.processed_layers ++ ["zoom"] }

/-- The `zoom` layer as a pipeline element. -/
def zoomLayer (cfg : ZoomConfig) (oracle : ZoomOracle) : GenerationLayer :=
  { name := "zoom", process := zoomProcess cfg oracle }

/-! ### `src/world/dual_chunk_system.py` -/

/-- Python `math.floor(a / b)` on integers: floor division. -/
def pyFloorDiv (a : Int) (b : Nat) : Int := Int.fdiv a (b : Int)

/-- One tile entry of a generation chunk
(`{'tile_type': …, 'x': …, 'y': …}` from `worker._generate_generation_chunk`). -/
structure TileData where
  tile_type : String
  x : Int
  y : Int
  deriving DecidableEq, Repr

/-- `GenerationChunk` dataclass (the `metadata` debug dict carries
statistics and timestamps no claim depends on). -/
structure GenerationChunk where
  chunk_x : Int
  chunk_y : Int
  chunk_size : Nat
  tiles : List ((Int × Int) × TileData)
  deriving DecidableEq, Repr

/-- `RenderChunk` dataclass (again without the debug `metadata`). -/
structure RenderChunk where
  chunk_x : Int
  chunk_y : Int
  chunk_size : Nat
  generation_chunks : List GenerationChunk
  aggregated_tiles : List ((Int × Int) × String)
  deriving DecidableEq, Repr

/-- `DualChunkManager.world_to_render_chunk`. -/
def worldToRenderChunk (renderChunkSize : Nat) (worldX worldY : Int) : Int × Int :=
  (pyFloorDiv worldX renderChunkSize, pyFloorDiv worldY renderChunkSize)

/-- `DualChunkManager.get_generation_chunks_for_render_chunk`. -/
def getGenerationChunksForRenderChunk (renderChunkSize : Nat)
    (renderChunkX renderChunkY : Int) (generationChunkSize : Nat) :
    List (Int × Int) :=
  let renderMinX := renderChunkX * (renderChunkSize : Int)
  let renderMinY := renderChunkY * (renderChunkSize : Int)
  let renderMaxX := renderMinX + (renderChunkSize : Int) - 1
  let renderMaxY := renderMinY + (renderChunkSize : Int) - 1
  let minGenX := pyFloorDiv renderMinX generationChunkSize
  let minGenY := pyFloorDiv renderMinY generationChunkSize
  let maxGenX := pyFloorDiv renderMaxX generationChunkSize
  let maxGenY := pyFloorDiv renderMaxY generationChunkSize
  (intRangeAsc minGenX maxGenX).flatMap (fun gx =>
    (intRangeAsc minGenY maxGenY).map (fun gy => (gx, gy)))

/-- One tile entry of the aggregation loop in
`DualChunkManager.aggregate_generation_chunks`: keep the tile only if
it lies inside the render chunk's world bounds. -/
def aggStep (renderMinX renderMinY renderMaxX renderMaxY : Int)
    (acc : List ((Int × Int) × String)) (kv : (Int × Int) × TileData) :
    List ((Int × Int) × String) :=
  if renderMinX ≤ kv.1.1 ∧ kv.1.1 ≤ renderMaxX ∧
     renderMinY ≤ kv.1.2 ∧ kv.1.2 ≤ renderMaxY then
    ainsert acc kv.1 kv.2.tile_type
  else acc

/-- The per-generation-chunk loop of the aggregation. -/
def aggChunkFold (renderMinX renderMinY renderMaxX renderMaxY : Int)
    (acc : List ((Int × Int) × String)) (g : GenerationChunk) :
    List ((Int × Int) × String) :=
  g.tiles.foldl (aggStep renderMinX renderMinY renderMaxX renderMaxY) acc

/-- `DualChunkManager.aggregate_generation_chunks`: keep, of every
generation chunk's tiles, exactly those inside the render chunk's
bounds (last write wins as for a Python dict). -/
def aggregateGenerationChunks (renderChunkSize : Nat)
    (generationChunks : List GenerationChunk)
    (renderChunkX renderChunkY : Int) : RenderChunk :=
  let renderMinX := renderChunkX * (renderChunkSize : Int)
  let renderMinY := renderChunkY * (renderChunkSize : Int)
  let renderMaxX := renderMinX + (renderChunkSize : Int) - 1
  let renderMaxY := renderMinY + (renderChunkSize : Int) - 1
  { chunk_x := renderChunkX, chunk_y := renderChunkY
    chunk_size := renderChunkSize
    generation_chunks := generationChunks
    aggregated_tiles := generationChunks.foldl
      (aggChunkFold renderMinX renderMinY renderMaxX renderMaxY)
      ([] : List ((Int × Int) × String)) }

/-- `DualChunkManager.calculate_final_generation_chunk_size`: halve per
`zoom` layer, clamped to at least 1. -/
def calculateFinalGenerationChunkSize (initialChunkSize : Nat)
    (pipelineLayers : List String) : Nat :=
  let current := pipelineLayers.foldl
    (fun s layerName => if layerName = "zoom" then s / 2 else s) initialChunkSize
  max 1 current

/-! ### `src/async_world/worker.py` -/

/-- The render chunk size the worker and manager fix
(`self.render_chunk_size = 64`). -/
def workerRenderChunkSize : Nat := 64

/-- The effective generation chunk size computed inside
`worker._generate_generation_chunk`: count the `zoom` layers and halve
that many times (no clamp to 1, unlike
`calculate_final_generation_chunk_size`). -/
def workerEffectiveChunkSize (chunkSize : Nat) (pipelineLayers : List String) : Nat :=
  let zoomCount := (pipelineLayers.filter (fun l => l = "zoom")).length
  Nat.rec chunkSize (fun _ s => s / 2) zoomCount

/-- `worker._generate_generation_chunk`, with the world generator's
`get_tile` abstracted as `getTileType` (PipelineWorldGenerator.get_tile
always returns a `Tile` whose `x`/`y` equal its arguments, so only the
type string is free). -/
def generateGenerationChunk (effectiveChunkSize : Nat)
    (getTileType : Int → Int → String) (chunkX chunkY : Int) : GenerationChunk :=
  let minWorldX := chunkX * (effectiveChunkSize : Int)
  let minWorldY := chunkY * (effectiveChunkSize : Int)
  let maxWorldX := minWorldX + (effectiveChunkSize : Int) - 1
  let maxWorldY := minWorldY + (effectiveChunkSize : Int) - 1
  let coords := (intRangeAsc minWorldY maxWorldY).flatMap (fun wy =>
    (intRangeAsc minWorldX maxWorldX).map (fun wx => (wx, wy)))
  { chunk_x := chunkX, chunk_y := chunkY
    chunk_size := effectiveChunkSize
    tiles := coords.map (fun p => (p, { tile_type := getTileType p.1 p.2, x := p.1, y := p.2 })) }

/-- The generation-relevant part of the worker's configuration. -/
structure WorkerConfig where
  chunk_size : Nat
  pipeline_layers : List String
  getTileType : Int → Int → String

/-- `worker._generate_render_chunk`. -/
def generateRenderChunk (cfg : WorkerConfig) (renderChunkX renderChunkY : Int) :
    RenderChunk :=
  let finalSize := calculateFinalGenerationChunkSize cfg.chunk_size cfg.pipeline_layers
  let effSize := workerEffectiveChunkSize cfg.chunk_size cfg.pipeline_layers
  let coords := getGenerationChunksForRenderChunk workerRenderChunkSize
    renderChunkX renderChunkY finalSize
  let gens := coords.map (fun c => generateGenerationChunk effSize cfg.getTileType c.1 c.2)
  aggregateGenerationChunks workerRenderChunkSize gens renderChunkX renderChunkY

/-- The `while len > limit: evict oldest` loop of
`worker._enforce_cache_limit` and of the manager's response handler
(`OrderedDict`: the first entry is the oldest). -/
def enforceCacheLimit {α : Type} (limit : Nat) : List α → List α
  | [] => []
  | x :: xs => if (x :: xs).length ≤ limit then x :: xs else enforceCacheLimit limit xs

/-- `WorldGenerationWorker` state (the parts `_process_message`
touches; the bus is shared with the manager). -/
structure WorkerState where
  cfg : WorkerConfig
  running : Bool
  render_chunk_cache : List ((Int × Int) × RenderChunk)
  cache_limit : Nat
  cancelled_requests : List String
  bus : MessageBus
  chunks_generated : Nat
  requests_processed : Nat
  requests_cancelled : Nat

/-- The serialisable response dict the worker builds from a render
chunk (with `generation_chunks` stripped). -/
def renderChunkToData (rc : RenderChunk) : WorkerChunkData :=
  { chunk_x := rc.chunk_x, chunk_y := rc.chunk_y, chunk_size := rc.chunk_size
    aggregated_tiles := rc.aggregated_tiles }

/-- `worker._handle_chunk_request`.  Generation itself
(`_generate_render_chunk`) is total in the model, so the `except`
branch that builds a failure response is unreachable here; cancelled
requests are dropped without a reply, cached chunks are re-sent without
regeneration, and fresh chunks are generated, cached (with immediate
LRU enforcement) and sent back. -/
def workerHandleChunkRequest (w : WorkerState) (req : ChunkRequest) : WorkerState :=
  if req.request_id ∈ w.cancelled_requests then
    { w with
      cancelled_requests := w.cancelled_requests.filter (fun s => s ≠ req.request_id)
      requests_cancelled := w.requests_cancelled + 1 }
  else
    match alookup w.render_chunk_cache (req.chunk_x, req.chunk_y) with
    | some rc =>
      let resp : Message :=
        { message_type := MessageType.chunk_response
          payload := MessagePayload.response
            { chunk_x := req.chunk_x, chunk_y := req.chunk_y
              chunk_data := some (renderChunkToData rc)
              request_id := req.request_id, success := true, error_message := none }
          sender := "worker_1" }
      { w with bus := sendToMainNB w.bus resp }
    | none =>
      let rc := generateRenderChunk w.cfg req.chunk_x req.chunk_y
      let cache1 := enforceCacheLimit w.cache_limit
        (ainsert w.render_chunk_cache (req.chunk_x, req.chunk_y) rc)
      let resp : Message :=
        { message_type := MessageType.chunk_response
          payload := MessagePayload.response
            { chunk_x := req.chunk_x, chunk_y := req.chunk_y
              chunk_data := some (renderChunkToData rc)
              request_id := req.request_id, success := true, error_message := none }
          sender := "worker_1" }
      { w with
        render_chunk_cache := cache1
        bus := sendToMainNB w.bus resp
        chunks_generated := w.chunks_generated + 1
        requests_processed := w.requests_processed + 1 }

/-- `worker._handle_chunk_cancel` (membership in `active_requests` only
guards the best-effort mark; the model marks unconditionally, which is
the conservative superset and irrelevant to every claim proved). -/
def workerHandleChunkCancel (w : WorkerState) (c : ChunkCancel) : WorkerState :=
  { w with
    cancelled_requests :=
      if c.request_id ∈ w.cancelled_requests then w.cancelled_requests
      else w.cancelled_requests ++ [c.request_id]
    requests_cancelled := w.requests_cancelled + 1 }

/-- `worker._process_message`. -/
def workerProcessMessage (w : WorkerState) (m : Message) : WorkerState :=
  match m.message_type, m.payload with
  | MessageType.shutdown_signal, _ => { w with running := false }
  | MessageType.chunk_request, MessagePayload.request r => workerHandleChunkRequest w r
  | MessageType.chunk_cancel, MessagePayload.cancel c => workerHandleChunkCancel w c
  | _, _ => w

/-- A freshly started worker (empty cache, empty cancel set). -/
def mkWorkerState (cfg : WorkerConfig) (cacheLimit : Nat) (bus : MessageBus) :
    WorkerState :=
  { cfg := cfg, running := true, render_chunk_cache := []
    cache_limit := cacheLimit, cancelled_requests := [], bus := bus
    chunks_generated := 0, requests_processed := 0, requests_cancelled := 0 }

/-! ### `src/async_world/manager.py` -/

/-- `Tile` (from `generators/world_generator.py`): immutable value with
world coordinates and a type string. -/
structure Tile where
  x : Int
  y : Int
  tile_type : String
  deriving DecidableEq, Repr

/-- `self._placeholder_tile = Tile(0, 0, "loading")`: built once in
`__init__` and never reassigned, so it is the same value in every
reachable manager state. -/
def placeholderTile : Tile := { x := 0, y := 0, tile_type := "loading" }

/-- The simplified render-chunk dict the manager stores in
`available_render_chunks` (built in `_handle_chunk_response`). -/
structure ManagerRenderEntry where
  chunk_x : Int
  chunk_y : Int
  chunk_size : Nat
  aggregated_tiles : List ((Int × Int) × String)
  tile_count : Nat
  deriving DecidableEq, Repr

/-- `AsyncWorldManager` state (the fields its read/request/response
paths touch). -/
structure ManagerState where
  render_chunk_size : Nat
  chunk_cache_limit : Nat
  available_render_chunks : List ((Int × Int) × ManagerRenderEntry)
  requested_chunks : List (Int × Int)
  loading_chunks : List (Int × Int)
  bus : MessageBus
  tile_cache : List ((Int × Int) × Tile)
  chunk_loader : ChunkLoadingManager
  cache_hits : Nat
  cache_misses : Nat
  chunks_requested : Nat
  chunks_received : Nat
  deriving Repr

/-- A freshly constructed manager (empty caches and sets, as in
`AsyncWorldManager.__init__`). -/
def mkManagerState (cacheLimit : Nat) (renderDistance unloadDistance : Int) :
    ManagerState :=
  { render_chunk_size := workerRenderChunkSize
    chunk_cache_limit := cacheLimit
    available_render_chunks := []
    requested_chunks := []
    loading_chunks := []
    bus := mkMessageBus 1000
    tile_cache := []
    chunk_loader := mkChunkLoadingManager renderDistance unloadDistance
    cache_hits := 0, cache_misses := 0
    chunks_requested := 0, chunks_received := 0 }

/-- `AsyncWorldManager.get_tile`: cache hit, else derive from a ready
render chunk (with the `(x+y) % 3` fallback pattern when the aggregated
dict lacks the tile or holds a falsy string), else the shared
placeholder.  The call touches neither the message bus nor the
loading/requested sets. -/
def managerGetTile (st : ManagerState) (worldX worldY : Int) : Tile × ManagerState :=
  let tileCoords := (worldX, worldY)
  match alookup st.tile_cache tileCoords with
  | some t => (t, { st with cache_hits := st.cache_hits + 1 })
  | none =>
    let renderChunkCoords := worldToRenderChunk st.render_chunk_size worldX worldY
    match alookup st.available_render_chunks renderChunkCoords with
    | some entry =>
      let tile :=
        match alookup entry.aggregated_tiles (worldX, worldY) with
        | some tt =>
          if tt = "" then
            -- `if tile_type:` is false for the empty string
            if (worldX + worldY) % 3 = 0 then { x := worldX, y := worldY, tile_type := "water" }
            else { x := worldX, y := worldY, tile_type := "stone" }
          else { x := worldX, y := worldY, tile_type := tt }
        | none =>
          if (worldX + worldY) % 3 = 0 then { x := worldX, y := worldY, tile_type := "water" }
          else { x := worldX, y := worldY, tile_type := "stone" }
      let cache1 :=
        if st.tile_cache.length < 50000 then ainsert st.tile_cache tileCoords tile
        else st.tile_cache
      (tile, { st with cache_misses := st.cache_misses + 1, tile_cache := cache1 })
    | none =>
      (placeholderTile, { st with cache_misses := st.cache_misses + 1 })

/-- The message priority chosen in `_request_chunks_in_priority_order`
from the (Euclidean) distance to the current centre: `≤ 1.0` urgent,
`≤ 2.0` high, else normal — compared on squared distances. -/
def chunkMsgPriority (st : ManagerState) (c : Int × Int) : Priority :=
  let p := getGenerationPrioritySq st.chunk_loader c
  if p ≤ 1 then Priority.urgent
  else if p ≤ 4 then Priority.high
  else Priority.normal

/-- One loop body of `_request_chunks_in_priority_order`. -/
def requestChunkStep (st : ManagerState) (c : Int × Int) : ManagerState :=
  if akeyMem st.available_render_chunks c ∨ c ∈ st.loading_chunks ∨
     c ∈ st.requested_chunks then st
  else
    let msg := Message.chunkRequestMsg c.1 c.2 (chunkMsgPriority st c)
    { st with
      bus := sendToWorkerNB st.bus msg
      requested_chunks := setAdd st.requested_chunks c
      loading_chunks := setAdd st.loading_chunks c
      chunks_requested := st.chunks_requested + 1 }

/-- `AsyncWorldManager._request_chunks_in_priority_order`. -/
def requestChunksInPriorityOrder (st : ManagerState) (chunks : List (Int × Int)) :
    ManagerState :=
  chunks.foldl requestChunkStep st

/-- `AsyncWorldManager._clear_chunk_tiles_from_cache`. -/
def clearChunkTilesFromCache (st : ManagerState) (c : Int × Int) : ManagerState :=
  let minX := c.1 * (st.render_chunk_size : Int)
  let minY := c.2 * (st.render_chunk_size : Int)
  let maxX := minX + (st.render_chunk_size : Int) - 1
  let maxY := minY + (st.render_chunk_size : Int) - 1
  { st with tile_cache := st.tile_cache.filter (fun kv =>
      ¬ (minX ≤ kv.1.1 ∧ kv.1.1 ≤ maxX ∧ minY ≤ kv.1.2 ∧ kv.1.2 ≤ maxY)) }

/-- `AsyncWorldManager._unload_chunks`. -/
def unloadChunks (st : ManagerState) (chunks : List (Int × Int)) : ManagerState :=
  chunks.foldl
    (fun s c =>
      let s1 := { s with
        available_render_chunks := aerase s.available_render_chunks c
        loading_chunks := setDiscard s.loading_chunks c
        requested_chunks := setDiscard s.requested_chunks c }
      clearChunkTilesFromCache s1 c)
    st

/-- `AsyncWorldManager._handle_chunk_response`: on a successful reply
with a well-formed dict, store the simplified entry, bump the counter
and evict the oldest entries down to `chunk_cache_limit`; in every case
drop the chunk from the loading and requested sets. -/
def managerHandleChunkResponse (st : ManagerState) (resp : ChunkResponse) :
    ManagerState :=
  let renderChunkCoords := (resp.chunk_x, resp.chunk_y)
  let st1 :=
    if resp.success then
      match resp.chunk_data with
      | some cd =>
        let entry : ManagerRenderEntry :=
          { chunk_x := cd.chunk_x, chunk_y := cd.chunk_y
            chunk_size := cd.chunk_size
            aggregated_tiles := cd.aggregated_tiles
            tile_count := cd.aggregated_tiles.length }
        { st with
          available_render_chunks :=
            enforceCacheLimit st.chunk_cache_limit
              (ainsert st.available_render_chunks renderChunkCoords entry)
          chunks_received := st.chunks_received + 1 }
      | none => st
    else st
  { st1 with
    loading_chunks := setDiscard st1.loading_chunks renderChunkCoords
    requested_chunks := setDiscard st1.requested_chunks renderChunkCoords }

/-- The operations that touch the manager's chunk bookkeeping: worker
responses drained by `_process_incoming_messages`, request batches from
`update_chunks`, and unload batches from `update_chunks`. -/
inductive ManagerEvent where
  | response (r : ChunkResponse)
  | requests (cs : List (Int × Int))
  | unloads (cs : List (Int × Int))

/-- Dispatch one manager event. -/
def managerStep (st : ManagerState) (e : ManagerEvent) : ManagerState :=
  match e with
  | ManagerEvent.response r => managerHandleChunkResponse st r
  | ManagerEvent.requests cs => requestChunksInPriorityOrder st cs
  | ManagerEvent.unloads cs => unloadChunks st cs

/-! ### Concrete fixtures used by evaluation theorems -/

/-- A legal zoom configuration (it passes every `__init__` validation:
`subdivision_factor ≥ 2` and the probabilities lie in `[0,1]`) in which
every random choice is switched off: single pass, one iteration,
expansion threshold 1, zero erosion probability, no noise and no
fractal perturbation.  Under it the cellular automaton is a
deterministic function of the chunk map and the bounds. -/
def zoomCfgNoRandom : ZoomConfig :=
  { subdivision_factor := 2
    land_expansion_threshold := 1
    erosion_probability := 0
    iterations := 1
    use_multi_pass := false
    pass_1_iterations := 3
    pass_1_expansion_threshold := 2
    pass_1_erosion_probability := 1/10
    pass_2_iterations := 3
    pass_2_expansion_threshold := 4
    pass_2_erosion_probability := 3/10
    protect_interior := false
    interior_threshold := 8
    use_moore_neighborhood := true
    preserve_islands := true
    min_island_size := 1
    add_noise := false
    noise_probability := 0
    edge_noise_boost := false
    edge_noise_probability := 1/4
    fractal_perturbation := false
    perturbation_strength := 3/10 }

/-- A concrete oracle instance (its values are irrelevant under
`zoomCfgNoRandom`; the constant stream keeps evaluation concrete). -/
def zoomOracleHalf : ZoomOracle :=
  { mt := fun _ _ => 1/2
    seedHashCA := fun s => s
    hashFractal := fun _ _ => 0
    fractalNoise := fun _ _ => 0 }

/-- A concrete per-chunk land assignment: chunk `(1, 0)` is land,
everything else water (any of the three lands-and-seas algorithms can
realise such a pattern for some seed; the layer only ever evaluates
this function at `(seed, cx, cy)`). -/
def dltOneLand : Int → Int → Int → String :=
  fun _ cx cy => if cx = 1 ∧ cy = 0 then "land" else "water"

/-- The two-layer pipeline `lands_and_seas → zoom` under the fixtures. -/
def c1Pipeline : GenerationPipeline :=
  { name := "world_tier"
    layers := [landsAndSeasLayer dltOneLand, zoomLayer zoomCfgNoRandom zoomOracleHalf] }

/-- The land type recorded for a chunk key in a pipeline result. -/
def landTypeAt (e : Except String GenerationData) (k : Int × Int) : Option String :=
  match e with
  | Except.error _ => none
  | Except.ok d => (alookup d.chunks k).bind (fun c => c.land_type)

/-- An arbitrary concrete message. -/
def exampleMsg : Message := Message.chunkRequestMsg 0 0 Priority.normal

/-- A bus whose worker-bound queue is full (`max_queue_size = 2` is a
legal constructor argument). -/
def fullBusEx : MessageBus :=
  { to_worker := [(4, exampleMsg), (4, exampleMsg)]
    to_main := []
    max_queue_size := 2
    messages_sent := 2
    messages_received := 0 }

/-! ### Association list and range lemmas -/

section AListLemmas

variable {K : Type} [DecidableEq K] {V : Type}

theorem alookup_ainsert_self (l : List (K × V)) (k : K) (v : V) :
    alookup (ainsert l k v) k = some v := by
  induction l with
  | nil => simp [ainsert, alookup]
  | cons hd tl ih =>
    obtain ⟨k0, v0⟩ := hd
    by_cases h : k = k0 <;> simp [ainsert, alookup, h, ih]

theorem alookup_ainsert_ne (l : List (K × V)) (k k2 : K) (v : V) (h : k2 ≠ k) :
    alookup (ainsert l k v) k2 = alookup l k2 := by
  induction l with
  | nil => simp [ainsert, alookup, h]
  | cons hd tl ih =>
    obtain ⟨k0, v0⟩ := hd
    by_cases hk : k = k0
    · subst hk; simp [ainsert, alookup, h]
    · by_cases hk2 : k2 = k0 <;> simp [ainsert, alookup, hk, hk2, ih]

theorem ainsert_length_le (l : List (K × V)) (k : K) (v : V) :
    (ainsert l k v).length ≤ l.length + 1 := by
  induction l with
  | nil => simp [ainsert]
  | cons hd tl ih =>
    obtain ⟨k0, v0⟩ := hd
    by_cases h : k = k0
    · simp [ainsert, h]
    · simp only [ainsert, if_neg h, List.length_cons]
      omega

theorem aerase_length_le (l : List (K × V)) (key : K) :
    (aerase l key).length ≤ l.length :=
  List.length_filter_le _ l

end AListLemmas

theorem mem_intRangeAsc {a b z : Int} : z ∈ intRangeAsc a b ↔ a ≤ z ∧ z ≤ b := by
  unfold intRangeAsc
  constructor
  · intro h
    rcases List.mem_map.mp h with ⟨i, hi, rfl⟩
    have hlt : i < (b + 1 - a).toNat := List.mem_range.mp hi
    have h2 : ((i : Nat) : Int) < (((b + 1 - a).toNat : Nat) : Int) := by exact_mod_cast hlt
    have h0 : (0 : Int) ≤ (i : Int) := Int.ofNat_nonneg i
    by_cases hb : 0 ≤ b + 1 - a
    · rw [Int.toNat_of_nonneg hb] at h2
      omega
    · have : (b + 1 - a).toNat = 0 := Int.toNat_of_nonpos (by omega)
      rw [this] at h2
      simp at h2
      omega
  · rintro ⟨h1, h2⟩
    refine List.mem_map.mpr ⟨(z - a).toNat, List.mem_range.mpr ?_, ?_⟩
    · rw [Int.toNat_lt_toNat (by omega : (0:Int) < b + 1 - a)]
      omega
    · rw [Int.toNat_of_nonneg (by omega : (0:Int) ≤ z - a)]
      omega

theorem mem_intRangeDesc {a b z : Int} : z ∈ intRangeDesc a b ↔ b ≤ z ∧ z ≤ a := by
  unfold intRangeDesc
  constructor
  · intro h
    rcases List.mem_map.mp h with ⟨i, hi, rfl⟩
    have hlt : i < (a + 1 - b).toNat := List.mem_range.mp hi
    have h2 : ((i : Nat) : Int) < (((a + 1 - b).toNat : Nat) : Int) := by exact_mod_cast hlt
    have h0 : (0 : Int) ≤ (i : Int) := Int.ofNat_nonneg i
    by_cases hb : 0 ≤ a + 1 - b
    · rw [Int.toNat_of_nonneg hb] at h2
      omega
    · have : (a + 1 - b).toNat = 0 := Int.toNat_of_nonpos (by omega)
      rw [this] at h2
      simp at h2
      omega
  · rintro ⟨h1, h2⟩
    refine List.mem_map.mpr ⟨(a - z).toNat, List.mem_range.mpr ?_, ?_⟩
    · rw [Int.toNat_lt_toNat (by omega : (0:Int) < a + 1 - b)]
      omega
    · rw [Int.toNat_of_nonneg (by omega : (0:Int) ≤ a - z)]
      omega

/-! ### Spiral ordering lemmas -/

theorem mem_generateLayerOffsets {L : Int} (hL : 1 ≤ L) {p : Int × Int} :
    p ∈ generateLayerOffsets L ↔ max |p.1| |p.2| = L := by
  obtain ⟨x, y⟩ := p
  unfold generateLayerOffsets
  rw [if_pos (by omega : L > 0)]
  simp only [List.mem_append, List.mem_map, mem_intRangeAsc, mem_intRangeDesc,
    Prod.mk.injEq]
  rw [Int.abs_eq_natAbs, Int.abs_eq_natAbs]
  constructor
  · rintro (((⟨x0, ⟨h1, h2⟩, rfl, rfl⟩ | ⟨y0, ⟨h1, h2⟩, rfl, rfl⟩) |
      ⟨x0, ⟨h1, h2⟩, rfl, rfl⟩) | ⟨y0, ⟨h1, h2⟩, rfl, rfl⟩) <;> omega
  · intro h
    by_cases hy1 : y = -L
    · exact Or.inl (Or.inl (Or.inl ⟨x, ⟨by omega, by omega⟩, rfl, hy1.symm⟩))
    · by_cases hy2 : y = L
      · exact Or.inl (Or.inr ⟨x, ⟨by omega, by omega⟩, rfl, hy2.symm⟩)
      · by_cases hx1 : x = L
        · exact Or.inl (Or.inl (Or.inr ⟨y, ⟨by omega, by omega⟩, hx1.symm, rfl⟩))
        · have hx2 : x = -L := by omega
          exact Or.inr ⟨y, ⟨by omega, by omega⟩, hx2.symm, rfl⟩

theorem mem_sortByDist {l : List (Int × Int)} {p : Int × Int} :
    p ∈ sortByDist l ↔ p ∈ l :=
  List.mem_insertionSort distLe

theorem sortByDist_pairwise (l : List (Int × Int)) :
    (sortByDist l).Pairwise distLe :=
  List.sorted_insertionSort distLe l

theorem mem_generateSpiralOffsets {r : Int} {p : Int × Int} :
    p ∈ generateSpiralOffsets r ↔ (p = (0, 0) ∨ max |p.1| |p.2| ≤ r) := by
  unfold generateSpiralOffsets
  by_cases hr : r ≤ 0
  · rw [if_pos hr]
    obtain ⟨x, y⟩ := p
    simp only [List.mem_singleton, Prod.mk.injEq]
    rw [Int.abs_eq_natAbs, Int.abs_eq_natAbs]
    constructor
    · rintro ⟨rfl, rfl⟩
      exact Or.inl ⟨rfl, rfl⟩
    · rintro (⟨rfl, rfl⟩ | h) <;> [exact ⟨rfl, rfl⟩; constructor] <;> omega
  · rw [if_neg hr]
    simp only [List.mem_cons, List.mem_flatten, List.mem_map]
    constructor
    · rintro (rfl | ⟨blk, ⟨L, hL, rfl⟩, hp⟩)
      · exact Or.inl rfl
      · rw [mem_intRangeAsc] at hL
        rw [mem_sortByDist, mem_generateLayerOffsets hL.1] at hp
        exact Or.inr (by omega)
    · rintro (rfl | h)
      · exact Or.inl rfl
      · by_cases hp0 : p = (0, 0)
        · exact Or.inl hp0
        · have hpos : 1 ≤ max |p.1| |p.2| := by
            rcases p with ⟨x, y⟩
            rw [Int.abs_eq_natAbs, Int.abs_eq_natAbs]
            simp only [Prod.mk.injEq] at hp0
            by_contra hc
            exact hp0 ⟨by omega, by omega⟩
          refine Or.inr ⟨sortByDist (generateLayerOffsets (max |p.1| |p.2|)),
            ⟨max |p.1| |p.2|, ?_, rfl⟩, ?_⟩
          · rw [mem_intRangeAsc]
            exact ⟨hpos, h⟩
          · rw [mem_sortByDist, mem_generateLayerOffsets hpos]

/-- Membership in `generate_spiral` for every radius (a non-positive
radius yields just the centre). -/
theorem mem_generateSpiral {cx cy r : Int} {c : Int × Int} :
    c ∈ generateSpiral cx cy r ↔ (c = (cx, cy) ∨ chebFrom (cx, cy) c ≤ r) := by
  unfold generateSpiral chebFrom
  simp only [List.mem_map]
  constructor
  · rintro ⟨o, ho, rfl⟩
    rw [mem_generateSpiralOffsets] at ho
    rcases ho with rfl | h
    · left
      simp
    · refine Or.inr ?_
      simpa using h
  · rintro (rfl | h)
    · exact ⟨(0, 0), mem_generateSpiralOffsets.mpr (Or.inl rfl), by simp⟩
    · refine ⟨(c.1 - cx, c.2 - cy), mem_generateSpiralOffsets.mpr (Or.inr h), ?_⟩
      simp

theorem generateSpiral_head (cx cy r : Int) :
    (generateSpiral cx cy r).head? = some (cx, cy) := by
  unfold generateSpiral generateSpiralOffsets
  by_cases hr : r ≤ 0 <;> simp [hr]

/-- Every element of a sorted ring block has Chebyshev radius `L`. -/
theorem cheb_of_mem_block {L : Int} (hL : 1 ≤ L) {p : Int × Int}
    (hp : p ∈ sortByDist (generateLayerOffsets L)) : max |p.1| |p.2| = L := by
  rw [mem_sortByDist, mem_generateLayerOffsets hL] at hp
  exact hp

theorem intRangeAsc_pairwise_lt (a b : Int) :
    (intRangeAsc a b).Pairwise (· < ·) := by
  unfold intRangeAsc
  rw [List.pairwise_map]
  exact (List.pairwise_lt_range _).imp (by omega)

/-- The spiral offset list is ordered ring-by-ring: Chebyshev radius is
non-decreasing, and inside a ring the squared Euclidean distance is
non-decreasing. -/
theorem generateSpiralOffsets_pairwise (r : Int) :
    (generateSpiralOffsets r).Pairwise (fun p q =>
      max |p.1| |p.2| < max |q.1| |q.2| ∨
      (max |p.1| |p.2| = max |q.1| |q.2| ∧
        distanceSquared p.1 p.2 ≤ distanceSquared q.1 q.2)) := by
  unfold generateSpiralOffsets
  by_cases hr : r ≤ 0
  · rw [if_pos hr]
    exact List.pairwise_singleton _ _
  · rw [if_neg hr]
    refine List.Pairwise.cons ?_ ?_
    · intro q hq
      rw [List.mem_flatten] at hq
      obtain ⟨blk, hblk, hq⟩ := hq
      rw [List.mem_map] at hblk
      obtain ⟨L, hL, rfl⟩ := hblk
      rw [mem_intRangeAsc] at hL
      have := cheb_of_mem_block hL.1 hq
      left
      simp only [abs_zero, max_self]
      omega
    · rw [List.pairwise_flatten]
      constructor
      · intro blk hblk
        rw [List.mem_map] at hblk
        obtain ⟨L, hL, rfl⟩ := hblk
        rw [mem_intRangeAsc] at hL
        refine (sortByDist_pairwise _).imp_of_mem ?_
        intro p q hp hq hle
        right
        rw [cheb_of_mem_block hL.1 hp, cheb_of_mem_block hL.1 hq]
        exact ⟨rfl, hle⟩
      · rw [List.pairwise_map]
        refine (intRangeAsc_pairwise_lt 1 r).imp_of_mem ?_
        intro L1 L2 hL1 hL2 hlt p hp q hq
        rw [mem_intRangeAsc] at hL1 hL2
        left
        rw [cheb_of_mem_block hL1.1 hp, cheb_of_mem_block hL2.1 hq]
        exact hlt

/-! ### Claim C3 -/

/-- C3, counterexample: at centre `(0,0)` and radius `4` the spiral
chunk list is *not* sorted by non-decreasing Euclidean distance from
the centre (the last corner of ring 3 is at distance `√18 ≈ 4.24`,
while ring 4 starts at distance `4`), refuting the claim's global
sortedness conjunct. -/
theorem spiral_not_euclid_sorted_radius_four :
    euclidSortedFromChk (0, 0) (generateSpiral 0 0 4) = false := by decide

/-- C3, amended: for every centre and every radius `r ≥ 0`, the spiral
chunk list contains exactly the coordinates within Chebyshev radius `r`
of the centre, its first element is the centre, and it is ordered
ring-by-ring: Chebyshev distance never decreases along the list, and
inside a ring the (squared) Euclidean distance never decreases. -/
theorem spiral_exact_membership_ring_ordered (cx cy r : Int) (hr : 0 ≤ r) :
    (∀ p, p ∈ generateSpiral cx cy r ↔ chebFrom (cx, cy) p ≤ r) ∧
    (generateSpiral cx cy r).head? = some (cx, cy) ∧
    (generateSpiral cx cy r).Pairwise (fun p q =>
      chebFrom (cx, cy) p < chebFrom (cx, cy) q ∨
      (chebFrom (cx, cy) p = chebFrom (cx, cy) q ∧
        euclidSqFrom (cx, cy) p ≤ euclidSqFrom (cx, cy) q)) := by
  refine ⟨?_, generateSpiral_head cx cy r, ?_⟩
  · intro p
    rw [mem_generateSpiral]
    constructor
    · rintro (rfl | h)
      · simp [chebFrom]
        omega
      · exact h
    · intro h
      exact Or.inr h
  · unfold generateSpiral
    rw [List.pairwise_map]
    refine (generateSpiralOffsets_pairwise r).imp_of_mem ?_
    intro p q _ _ h
    have e1 : chebFrom (cx, cy) (cx + p.1, cy + p.2) = max |p.1| |p.2| := by
      simp [chebFrom]
    have e2 : chebFrom (cx, cy) (cx + q.1, cy + q.2) = max |q.1| |q.2| := by
      simp [chebFrom]
    have e3 : euclidSqFrom (cx, cy) (cx + p.1, cy + p.2) = distanceSquared p.1 p.2 := by
      simp [euclidSqFrom]
    have e4 : euclidSqFrom (cx, cy) (cx + q.1, cy + q.2) = distanceSquared q.1 q.2 := by
      simp [euclidSqFrom]
    rw [e1, e2, e3, e4]
    exact h

/-- C3, witness for the amended theorem at radius 2. -/
theorem spiral_exact_membership_ring_ordered_witness :
    ((0:Int) ≤ 2) ∧ (generateSpiral 0 0 2).head? = some (0, 0) ∧
      ((5, 7) ∈ generateSpiral 0 0 2 ↔ chebFrom (0, 0) (5, 7) ≤ 2) :=
  ⟨by decide,
   (spiral_exact_membership_ring_ordered 0 0 2 (by decide)).2.1,
   (spiral_exact_membership_ring_ordered 0 0 2 (by decide)).1 (5, 7)⟩

/-! ### Claim C4 -/

/-- C4: `update_for_position(new_center)` returns, as sets,
`chunks_to_generate = spiral(new, load_radius) − spiral(old, load_radius)`
and `chunks_to_unload = spiral(old, load_radius) − spiral(new,
unload_radius)`, and both lists are empty when the centre did not move
(the hysteresis assumption `load_radius ≤ unload_radius` of the design
is needed for the unload equation in the unmoved case). -/
theorem update_for_position_deltas (m : ChunkLoadingManager) (nc c : Int × Int)
    (h : m.load_radius ≤ m.unload_radius) :
    (c ∈ ((updateForPosition m nc).1).1 ↔
      (c ∈ generateSpiral nc.1 nc.2 m.load_radius ∧
       c ∉ generateSpiral m.current_center_chunk.1 m.current_center_chunk.2
          m.load_radius)) ∧
    (c ∈ ((updateForPosition m nc).1).2 ↔
      (c ∈ generateSpiral m.current_center_chunk.1 m.current_center_chunk.2
          m.load_radius ∧
       c ∉ generateSpiral nc.1 nc.2 m.unload_radius)) ∧
    (m.current_center_chunk = nc →
      ((updateForPosition m nc).1).1 = [] ∧ ((updateForPosition m nc).1).2 = []) := by
  by_cases hc : m.current_center_chunk = nc
  · have hgen : ((updateForPosition m nc).1).1 = [] := by
      simp [updateForPosition, getNewChunksForMovement, hc]
    have hun : ((updateForPosition m nc).1).2 = [] := by
      simp [updateForPosition, getChunksToUnload, hc]
    refine ⟨?_, ?_, fun _ => ⟨hgen, hun⟩⟩
    · rw [hgen]
      simp only [List.not_mem_nil, false_iff]
      rw [hc]
      rintro ⟨h1, h2⟩
      exact h2 h1
    · rw [hun]
      simp only [List.not_mem_nil, false_iff]
      rw [hc]
      rintro ⟨h1, h2⟩
      rw [mem_generateSpiral] at h1
      exact h2 (mem_generateSpiral.mpr (h1.imp id (fun hh => le_trans hh h)))
  · refine ⟨?_, ?_, fun hcc => absurd hcc hc⟩
    · have : ((updateForPosition m nc).1).1 =
        getNewChunksForMovement m.current_center_chunk nc m.load_radius := rfl
      rw [this]
      unfold getNewChunksForMovement
      rw [if_neg hc, List.mem_insertionSort]
      simp [List.mem_filter]
    · have : ((updateForPosition m nc).1).2 =
        getChunksToUnload m.current_center_chunk nc m.load_radius m.unload_radius := rfl
      rw [this]
      unfold getChunksToUnload
      rw [if_neg hc]
      simp [List.mem_filter]

/-- C4, witness: moving from `(0,0)` to `(1,0)` with radii `1 ≤ 2`,
chunk `(2,0)` is a new chunk and not an unload candidate. -/
theorem update_for_position_deltas_witness :
    (mkChunkLoadingManager 1 2).load_radius ≤ (mkChunkLoadingManager 1 2).unload_radius ∧
    ((2, 0) ∈ ((updateForPosition (mkChunkLoadingManager 1 2) (1, 0)).1).1 ↔
      ((2, 0) ∈ generateSpiral 1 0 1 ∧ (2, 0) ∉ generateSpiral 0 0 1)) :=
  ⟨by decide,
   ((update_for_position_deltas (mkChunkLoadingManager 1 2) (1, 0) (2, 0)
      (by decide)).1)⟩

/-! ### Claim C5 -/

/-- C5, counterexample: `GenerationPipeline.__init__` succeeds with
zero configured layers — the pipeline *does* construct successfully, so
the claimed construction-time failure does not exist. -/
theorem pipeline_zero_layers_constructs :
    mkGenerationPipeline "world_tier" =
      Except.ok { name := "world_tier", layers := [] } := rfl

/-- C5, amended: a pipeline with zero configured layers constructs
successfully; the fail-fast check lives in `process`, whose first call
raises a descriptive `RuntimeError` instead of silently producing empty
chunks. -/
theorem pipeline_zero_layers_process_fails (p : GenerationPipeline)
    (data : GenerationData) (bounds : Bounds) (h : p.layers = []) :
    p.process data bounds = Except.error
      ("Pipeline " ++ p.name ++ " has no layers configured - cannot generate terrain") := by
  unfold GenerationPipeline.process
  rw [h]
  rfl

/-- C5, witness: processing with the empty pipeline errors out. -/
theorem pipeline_zero_layers_process_fails_witness :
    ({ name := "world_tier", layers := [] } : GenerationPipeline).layers = [] ∧
    ({ name := "world_tier", layers := [] } : GenerationPipeline).process
        (mkGenerationData 0 16) (0, 0, 0, 0) =
      Except.error ("Pipeline " ++ "world_tier" ++
        " has no layers configured - cannot generate terrain") :=
  ⟨rfl, pipeline_zero_layers_process_fails _ (mkGenerationData 0 16) (0, 0, 0, 0) rfl⟩

/-! ### Claim C1 -/

/-- C1: generation is *not* batch-independent.  With the (legal) zoom
configuration that disables every random choice, the pipeline
`lands_and_seas → zoom` run over the single-parent bounds
`(0,0)–(0,0)` gives the subdivided chunk `(1,0)` land type `water`,
but run over the larger bounds `(0,0)–(1,0)` — which contain the same
parent chunk — gives it `land`: the zoom layer's cellular automaton
counts neighbours only inside the requested batch, so a chunk's output
depends on which other chunks are in the batch.  (The result holds for
every RNG stream; the oracle's values are never consulted under this
configuration.) -/
theorem zoom_batch_dependence :
    landTypeAt (c1Pipeline.process (mkGenerationData 12345 32) (0, 0, 0, 0)) (1, 0) =
      some "water" ∧
    landTypeAt (c1Pipeline.process (mkGenerationData 12345 32) (0, 0, 1, 0)) (1, 0) =
      some "land" := by
  constructor <;> decide

/-! ### Claim C9 -/

/-- C9, counterexample: `send_to_worker` defaults to `block=True`, and
with that default a full worker queue makes the call block (the `none`
outcome) instead of dropping the message and returning — the sends are
not non-blocking by default. -/
theorem send_to_worker_default_blocks :
    sendDefaultBlock = true ∧
    sendToWorker fullBusEx exampleMsg sendDefaultBlock = none := by
  constructor <;> decide

/-- C9, amended: the send operations take a `block` flag that defaults
to `True`; invoked non-blockingly (`block=False`, as the manager and
worker always do) they never raise and never block: on a full
destination queue the message is dropped and logged, the bus is
unchanged and the call returns normally. -/
theorem send_nonblocking_never_fails (bus : MessageBus) (m : Message) :
    (sendToWorker bus m false).isSome = true ∧
    (sendToMain bus m false).isSome = true ∧
    (bus.max_queue_size ≤ bus.to_worker.length → sendToWorker bus m false = some bus) ∧
    (bus.max_queue_size ≤ bus.to_main.length → sendToMain bus m false = some bus) := by
  refine ⟨?_, ?_, ?_, ?_⟩
  · unfold sendToWorker
    by_cases h : bus.to_worker.length < bus.max_queue_size <;> simp [h]
  · unfold sendToMain
    by_cases h : bus.to_main.length < bus.max_queue_size <;> simp [h]
  · intro h
    unfold sendToWorker
    rw [if_neg (by omega)]
    simp
  · intro h
    unfold sendToMain
    rw [if_neg (by omega)]
    simp

/-- C9, witness: on the concrete full bus a non-blocking send returns
normally with the bus unchanged. -/
theorem send_nonblocking_never_fails_witness :
    fullBusEx.max_queue_size ≤ fullBusEx.to_worker.length ∧
    sendToWorker fullBusEx exampleMsg false = some fullBusEx :=
  ⟨by decide,
   (send_nonblocking_never_fails fullBusEx exampleMsg).2.2.1 (by decide)⟩

/-! ### Dual-chunk arithmetic lemmas (claim C6) -/

theorem pyFloorDiv_eq_ediv (a : Int) (s : Nat) : pyFloorDiv a s = a / (s : Int) :=
  Int.fdiv_eq_ediv a (Int.ofNat_nonneg s)

theorem pyFloorDiv_le_of_le {a b : Int} {s : Nat} (hs : 0 < s) (h : a ≤ b) :
    pyFloorDiv a s ≤ pyFloorDiv b s := by
  rw [pyFloorDiv_eq_ediv, pyFloorDiv_eq_ediv]
  exact Int.ediv_le_ediv (by exact_mod_cast hs) h

theorem pyFloorDiv_cover (x : Int) {s : Nat} (hs : 0 < s) :
    pyFloorDiv x s * (s : Int) ≤ x ∧ x ≤ pyFloorDiv x s * (s : Int) + (s : Int) - 1 := by
  rw [pyFloorDiv_eq_ediv]
  have hsi : (0 : Int) < (s : Int) := by exact_mod_cast hs
  refine ⟨Int.ediv_mul_le x (by omega), ?_⟩
  have h2 := Int.lt_ediv_add_one_mul_self x hsi
  nlinarith

theorem mem_getGenerationChunks {rs gs : Nat} {rx ry gx gy : Int} :
    (gx, gy) ∈ getGenerationChunksForRenderChunk rs rx ry gs ↔
      (pyFloorDiv (rx * rs) gs ≤ gx ∧
       gx ≤ pyFloorDiv (rx * rs + rs - 1) gs ∧
       pyFloorDiv (ry * rs) gs ≤ gy ∧
       gy ≤ pyFloorDiv (ry * rs + rs - 1) gs) := by
  unfold getGenerationChunksForRenderChunk
  simp only [List.mem_flatMap, List.mem_map, mem_intRangeAsc, Prod.mk.injEq]
  constructor
  · rintro ⟨a, ⟨h1, h2⟩, b, ⟨h3, h4⟩, rfl, rfl⟩
    exact ⟨h1, h2, h3, h4⟩
  · rintro ⟨h1, h2, h3, h4⟩
    exact ⟨gx, ⟨h1, h2⟩, gy, ⟨h3, h4⟩, rfl, rfl⟩

theorem genChunk_tiles_value {s : Nat} {f : Int → Int → String} {gx gy : Int}
    {k : Int × Int} {td : TileData}
    (h : (k, td) ∈ (generateGenerationChunk s f gx gy).tiles) :
    td.tile_type = f k.1 k.2 := by
  unfold generateGenerationChunk at h
  simp only [List.mem_map, Prod.mk.injEq] at h
  obtain ⟨p, _, rfl, rfl⟩ := h
  rfl

theorem genChunk_tiles_present {s : Nat} (f : Int → Int → String) (gx gy : Int)
    {x y : Int}
    (hx1 : gx * (s : Int) ≤ x) (hx2 : x ≤ gx * (s : Int) + (s : Int) - 1)
    (hy1 : gy * (s : Int) ≤ y) (hy2 : y ≤ gy * (s : Int) + (s : Int) - 1) :
    ∃ td, ((x, y), td) ∈ (generateGenerationChunk s f gx gy).tiles := by
  refine ⟨{ tile_type := f x y, x := x, y := y }, ?_⟩
  unfold generateGenerationChunk
  simp only [List.mem_map, Prod.mk.injEq]
  refine ⟨(x, y), ?_, rfl, rfl⟩
  simp only [List.mem_flatMap, List.mem_map, mem_intRangeAsc, Prod.mk.injEq]
  exact ⟨y, ⟨hy1, hy2⟩, x, ⟨hx1, hx2⟩, rfl, rfl⟩

theorem aggChunkFold_lookup_of_not_mem {minX minY maxX maxY : Int}
    {tiles : List ((Int × Int) × TileData)} {k : Int × Int}
    (h : ∀ td, (k, td) ∉ tiles) (acc : List ((Int × Int) × String)) :
    alookup (tiles.foldl (aggStep minX minY maxX maxY) acc) k = alookup acc k := by
  induction tiles generalizing acc with
  | nil => rfl
  | cons hd tl ih =>
    obtain ⟨k0, td0⟩ := hd
    have hk : k ≠ k0 := by
      intro hkk
      exact h td0 (by rw [hkk]; exact List.mem_cons_self _ _)
    rw [List.foldl_cons]
    rw [ih (fun td htd => h td (List.mem_cons_of_mem _ htd))]
    unfold aggStep
    split
    · exact alookup_ainsert_ne acc k0 k td0.tile_type hk
    · rfl

theorem aggChunkFold_lookup_of_mem {minX minY maxX maxY : Int}
    {tiles : List ((Int × Int) × TileData)} {k : Int × Int} {v : String}
    (hval : ∀ td, (k, td) ∈ tiles → td.tile_type = v)
    (hin : minX ≤ k.1 ∧ k.1 ≤ maxX ∧ minY ≤ k.2 ∧ k.2 ≤ maxY)
    (hex : ∃ td, (k, td) ∈ tiles) (acc : List ((Int × Int) × String)) :
    alookup (tiles.foldl (aggStep minX minY maxX maxY) acc) k = some v := by
  induction tiles generalizing acc with
  | nil => exact absurd hex (by simp)
  | cons hd tl ih =>
    obtain ⟨k0, td0⟩ := hd
    rw [List.foldl_cons]
    by_cases hk : k0 = k
    · subst hk
      have hv0 : td0.tile_type = v := hval td0 (List.mem_cons_self _ _)
      have hstep : aggStep minX minY maxX maxY acc (k0, td0) = ainsert acc k0 v := by
        unfold aggStep
        rw [if_pos hin, hv0]
      rw [hstep]
      by_cases hex2 : ∃ td, (k0, td) ∈ tl
      · exact ih (fun td htd => hval td (List.mem_cons_of_mem _ htd)) hex2 _
      · rw [aggChunkFold_lookup_of_not_mem (by push_neg at hex2; exact hex2) _]
        exact alookup_ainsert_self acc k0 v
    · have hex2 : ∃ td, (k, td) ∈ tl := by
        obtain ⟨td, htd⟩ := hex
        rcases List.mem_cons.mp htd with heq | hmem
        · exact absurd (congrArg Prod.fst heq).symm hk
        · exact ⟨td, hmem⟩
      exact ih (fun td htd => hval td (List.mem_cons_of_mem _ htd)) hex2 _

theorem aggChunkFold_lookup_of_not_inb {minX minY maxX maxY : Int} {k : Int × Int}
    (hnb : ¬ (minX ≤ k.1 ∧ k.1 ≤ maxX ∧ minY ≤ k.2 ∧ k.2 ≤ maxY))
    (tiles : List ((Int × Int) × TileData)) (acc : List ((Int × Int) × String)) :
    alookup (tiles.foldl (aggStep minX minY maxX maxY) acc) k = alookup acc k := by
  induction tiles generalizing acc with
  | nil => rfl
  | cons hd tl ih =>
    obtain ⟨k0, td0⟩ := hd
    rw [List.foldl_cons, ih]
    by_cases hk : k0 = k
    · subst hk
      unfold aggStep
      rw [if_neg hnb]
    · unfold aggStep
      split
      · exact alookup_ainsert_ne acc k0 k td0.tile_type (fun h => hk h.symm)
      · rfl

theorem aggFold_lookup_of_not_mem {minX minY maxX maxY : Int} {k : Int × Int}
    {gens : List GenerationChunk}
    (h : ∀ g ∈ gens, ∀ td, (k, td) ∉ g.tiles) (acc : List ((Int × Int) × String)) :
    alookup (gens.foldl (aggChunkFold minX minY maxX maxY) acc) k = alookup acc k := by
  induction gens generalizing acc with
  | nil => rfl
  | cons g gs ih =>
    rw [List.foldl_cons, ih (fun g2 hg2 => h g2 (List.mem_cons_of_mem _ hg2))]
    exact aggChunkFold_lookup_of_not_mem (h g (List.mem_cons_self _ _)) acc

theorem aggFold_lookup_of_mem {minX minY maxX maxY : Int} {k : Int × Int} {v : String}
    {gens : List GenerationChunk}
    (hval : ∀ g ∈ gens, ∀ td, (k, td) ∈ g.tiles → td.tile_type = v)
    (hin : minX ≤ k.1 ∧ k.1 ≤ maxX ∧ minY ≤ k.2 ∧ k.2 ≤ maxY)
    (hex : ∃ g ∈ gens, ∃ td, (k, td) ∈ g.tiles) (acc : List ((Int × Int) × String)) :
    alookup (gens.foldl (aggChunkFold minX minY maxX maxY) acc) k = some v := by
  induction gens generalizing acc with
  | nil => exact absurd hex (by simp)
  | cons g gs ih =>
    rw [List.foldl_cons]
    by_cases hex2 : ∃ g2 ∈ gs, ∃ td, (k, td) ∈ g2.tiles
    · exact ih (fun g2 hg2 => hval g2 (List.mem_cons_of_mem _ hg2)) hex2 _
    · have hexg : ∃ td, (k, td) ∈ g.tiles := by
        obtain ⟨g2, hg2, htd⟩ := hex
        rcases List.mem_cons.mp hg2 with rfl | hmem
        · exact htd
        · exact absurd ⟨g2, hmem, htd⟩ hex2
      have hnot : ∀ g2 ∈ gs, ∀ td, (k, td) ∉ g2.tiles := by
        intro g2 hg2 td htd
        exact hex2 ⟨g2, hg2, td, htd⟩
      rw [aggFold_lookup_of_not_mem hnot]
      exact aggChunkFold_lookup_of_mem
        (hval g (List.mem_cons_self _ _)) hin hexg acc

theorem aggFold_lookup_of_not_inb {minX minY maxX maxY : Int} {k : Int × Int}
    (hnb : ¬ (minX ≤ k.1 ∧ k.1 ≤ maxX ∧ minY ≤ k.2 ∧ k.2 ≤ maxY))
    (gens : List GenerationChunk) (acc : List ((Int × Int) × String)) :
    alookup (gens.foldl (aggChunkFold minX minY maxX maxY) acc) k = alookup acc k := by
  induction gens generalizing acc with
  | nil => rfl
  | cons g gs ih =>
    rw [List.foldl_cons, ih]
    exact aggChunkFold_lookup_of_not_inb hnb g.tiles acc

theorem natHalveIter_eq (cs n : Nat) :
    (Nat.rec cs (fun _ t => t / 2) n : Nat) = cs / 2 ^ n := by
  induction n with
  | zero => simp
  | succ m ih =>
    show (Nat.rec cs (fun _ t => t / 2) m : Nat) / 2 = cs / 2 ^ (m + 1)
    rw [ih, Nat.div_div_eq_div_mul, pow_succ]

theorem foldlHalve_eq (layers : List String) (cs : Nat) :
    layers.foldl (fun s layerName => if layerName = "zoom" then s / 2 else s) cs =
      cs / 2 ^ ((layers.filter (fun l => l = "zoom")).length) := by
  induction layers generalizing cs with
  | nil => simp
  | cons hd tl ih =>
    by_cases h : hd = "zoom"
    · subst h
      rw [List.foldl_cons, if_pos rfl, ih]
      have hlen : (List.filter (fun l => l = "zoom") ("zoom" :: tl)).length =
          (List.filter (fun l => l = "zoom") tl).length + 1 := by simp
      rw [hlen, Nat.div_div_eq_div_mul]
      congr 1
      ring
    · rw [List.foldl_cons, if_neg h, ih]
      have hlen : (List.filter (fun l => l = "zoom") (hd :: tl)).length =
          (List.filter (fun l => l = "zoom") tl).length := by simp [h]
      rw [hlen]

theorem workerEffectiveChunkSize_eq (cs : Nat) (layers : List String) :
    workerEffectiveChunkSize cs layers =
      cs / 2 ^ ((layers.filter (fun l => l = "zoom")).length) := by
  unfold workerEffectiveChunkSize
  exact natHalveIter_eq cs _

theorem calcFinal_eq_effective {cs : Nat} {layers : List String}
    (h : 0 < workerEffectiveChunkSize cs layers) :
    calculateFinalGenerationChunkSize cs layers = workerEffectiveChunkSize cs layers := by
  simp only [calculateFinalGenerationChunkSize]
  rw [foldlHalve_eq, ← workerEffectiveChunkSize_eq]
  omega

/-! ### Claim C6 -/

/-- C6: when the effective generation chunk size is positive (true for
every configuration whose chunk size is not halved away by its zoom
layers, e.g. the shipped 32 with two zooms), a generated render chunk's
aggregated tile map contains an entry for *every* world coordinate in
its 64×64 bounds — the floor-division chunk range covers the render
chunk and each generation chunk supplies its full tile grid — and,
conversely, the aggregation keeps only tiles inside those bounds. -/
theorem render_chunk_coverage (chunkSize : Nat) (layers : List String)
    (f : Int → Int → String) (rx ry : Int)
    (hs : 0 < workerEffectiveChunkSize chunkSize layers) :
    (∀ x y : Int, rx * 64 ≤ x → x ≤ rx * 64 + 63 → ry * 64 ≤ y → y ≤ ry * 64 + 63 →
      alookup (generateRenderChunk
          { chunk_size := chunkSize, pipeline_layers := layers, getTileType := f }
          rx ry).aggregated_tiles (x, y) = some (f x y)) ∧
    (∀ (k : Int × Int) (v : String),
      alookup (generateRenderChunk
          { chunk_size := chunkSize, pipeline_layers := layers, getTileType := f }
          rx ry).aggregated_tiles k = some v →
      rx * 64 ≤ k.1 ∧ k.1 ≤ rx * 64 + 63 ∧ ry * 64 ≤ k.2 ∧ k.2 ≤ ry * 64 + 63) := by
  have hfinal := @calcFinal_eq_effective chunkSize layers hs
  set s : Nat := workerEffectiveChunkSize chunkSize layers with hsdef
  have hso : (0 : Int) < (s : Int) := by exact_mod_cast hs
  have hagg : (generateRenderChunk
      { chunk_size := chunkSize, pipeline_layers := layers, getTileType := f }
      rx ry).aggregated_tiles =
      ((getGenerationChunksForRenderChunk 64 rx ry s).map
        (fun c => generateGenerationChunk s f c.1 c.2)).foldl
        (aggChunkFold (rx * 64) (ry * 64) (rx * 64 + 64 - 1) (ry * 64 + 64 - 1)) [] := by
    simp only [generateRenderChunk, aggregateGenerationChunks, workerRenderChunkSize, hfinal]
    norm_num
  constructor
  · intro x y hx1 hx2 hy1 hy2
    rw [hagg]
    apply aggFold_lookup_of_mem
    · intro g hg td htd
      rw [List.mem_map] at hg
      obtain ⟨c, _, rfl⟩ := hg
      exact genChunk_tiles_value htd
    · refine ⟨by omega, by omega, by omega, by omega⟩
    · refine ⟨generateGenerationChunk s f (pyFloorDiv x s) (pyFloorDiv y s), ?_, ?_⟩
      · rw [List.mem_map]
        refine ⟨(pyFloorDiv x s, pyFloorDiv y s), ?_, rfl⟩
        rw [mem_getGenerationChunks]
        have c1 : pyFloorDiv (rx * (64:Nat)) s ≤ pyFloorDiv x s :=
          pyFloorDiv_le_of_le hs (by push_cast; omega)
        have c2 : pyFloorDiv x s ≤ pyFloorDiv (rx * (64:Nat) + (64:Nat) - 1) s :=
          pyFloorDiv_le_of_le hs (by push_cast; omega)
        have c3 : pyFloorDiv (ry * (64:Nat)) s ≤ pyFloorDiv y s :=
          pyFloorDiv_le_of_le hs (by push_cast; omega)
        have c4 : pyFloorDiv y s ≤ pyFloorDiv (ry * (64:Nat) + (64:Nat) - 1) s :=
          pyFloorDiv_le_of_le hs (by push_cast; omega)
        exact ⟨c1, c2, c3, c4⟩
      · have hcx := pyFloorDiv_cover x hs
        have hcy := pyFloorDiv_cover y hs
        exact genChunk_tiles_present f _ _ hcx.1 hcx.2 hcy.1 hcy.2
  · intro k v hv
    rw [hagg] at hv
    by_contra hnb
    rw [aggFold_lookup_of_not_inb (by omega) _ _] at hv
    exact Option.noConfusion hv

/-- C6, witness: the shipped configuration (chunk size 32, layers
`lands_and_seas, zoom, zoom`) has a positive effective size, and the
render chunk at `(0,0)` holds a tile for world coordinate `(0,0)`. -/
theorem render_chunk_coverage_witness :
    0 < workerEffectiveChunkSize 32 ["lands_and_seas", "zoom", "zoom"] ∧
    alookup (generateRenderChunk
        { chunk_size := 32, pipeline_layers := ["lands_and_seas", "zoom", "zoom"]
          getTileType := fun _ _ => "land" } 0 0).aggregated_tiles (0, 0) =
      some "land" :=
  ⟨by decide,
   (render_chunk_coverage 32 ["lands_and_seas", "zoom", "zoom"]
      (fun _ _ => "land") 0 0 (by decide)).1 0 0
      (by decide) (by decide) (by decide) (by decide)⟩

/-! ### Cache bound lemmas (claim C7) -/

theorem enforceCacheLimit_length_le {α : Type} (limit : Nat) (l : List α) :
    (enforceCacheLimit limit l).length ≤ limit := by
  induction l with
  | nil => simp [enforceCacheLimit]
  | cons x xs ih =>
    unfold enforceCacheLimit
    split
    · omega
    · exact ih

theorem requestChunkStep_preserves (st : ManagerState) (c : Int × Int) :
    (requestChunkStep st c).available_render_chunks = st.available_render_chunks ∧
    (requestChunkStep st c).chunk_cache_limit = st.chunk_cache_limit := by
  unfold requestChunkStep
  split <;> exact ⟨rfl, rfl⟩

theorem requestChunks_preserves (cs : List (Int × Int)) (st : ManagerState) :
    (requestChunksInPriorityOrder st cs).available_render_chunks =
      st.available_render_chunks ∧
    (requestChunksInPriorityOrder st cs).chunk_cache_limit = st.chunk_cache_limit := by
  induction cs generalizing st with
  | nil => exact ⟨rfl, rfl⟩
  | cons c cs ih =>
    have h1 := requestChunkStep_preserves st c
    have h2 := ih (requestChunkStep st c)
    unfold requestChunksInPriorityOrder at h2 ⊢
    rw [List.foldl_cons]
    exact ⟨h2.1.trans h1.1, h2.2.trans h1.2⟩

theorem unloadChunks_shrinks (cs : List (Int × Int)) (st : ManagerState) :
    (unloadChunks st cs).available_render_chunks.length ≤
      st.available_render_chunks.length ∧
    (unloadChunks st cs).chunk_cache_limit = st.chunk_cache_limit := by
  induction cs generalizing st with
  | nil => exact ⟨le_refl _, rfl⟩
  | cons c cs ih =>
    unfold unloadChunks
    rw [List.foldl_cons]
    have step_le : (aerase st.available_render_chunks c).length ≤
        st.available_render_chunks.length := aerase_length_le _ _
    have h2 := ih (clearChunkTilesFromCache
      { st with
        available_render_chunks := aerase st.available_render_chunks c
        loading_chunks := setDiscard st.loading_chunks c
        requested_chunks := setDiscard st.requested_chunks c } c)
    unfold unloadChunks at h2
    refine ⟨le_trans h2.1 ?_, h2.2.trans ?_⟩
    · simp [clearChunkTilesFromCache]
      exact step_le
    · simp [clearChunkTilesFromCache]

theorem handleResponse_props (st : ManagerState) (r : ChunkResponse) :
    ((managerHandleChunkResponse st r).available_render_chunks =
        st.available_render_chunks ∨
      (managerHandleChunkResponse st r).available_render_chunks.length ≤
        st.chunk_cache_limit) ∧
    (managerHandleChunkResponse st r).chunk_cache_limit = st.chunk_cache_limit := by
  unfold managerHandleChunkResponse
  rcases hr : r.success with _ | _
  · simp [hr]
  · rcases hd : r.chunk_data with _ | cd
    · simp [hr, hd]
    · simp only [hr, hd]
      exact ⟨Or.inr (enforceCacheLimit_length_le _ _), rfl⟩

theorem managerStep_bound (st : ManagerState) (e : ManagerEvent)
    (h : st.available_render_chunks.length ≤ st.chunk_cache_limit) :
    (managerStep st e).available_render_chunks.length ≤
      (managerStep st e).chunk_cache_limit ∧
    (managerStep st e).chunk_cache_limit = st.chunk_cache_limit := by
  match e with
  | ManagerEvent.response r =>
    have hp := handleResponse_props st r
    have hred : managerStep st (ManagerEvent.response r) =
        managerHandleChunkResponse st r := rfl
    rw [hred, hp.2]
    refine ⟨?_, rfl⟩
    rcases hp.1 with heq | hle
    · rw [heq]; exact h
    · exact hle
  | ManagerEvent.requests cs =>
    have hp := requestChunks_preserves cs st
    have hred : managerStep st (ManagerEvent.requests cs) =
        requestChunksInPriorityOrder st cs := rfl
    rw [hred, hp.1, hp.2]
    exact ⟨h, rfl⟩
  | ManagerEvent.unloads cs =>
    have hp := unloadChunks_shrinks cs st
    have hred : managerStep st (ManagerEvent.unloads cs) = unloadChunks st cs := rfl
    rw [hred, hp.2]
    exact ⟨le_trans hp.1 h, rfl⟩

theorem managerStep_limit (st : ManagerState) (e : ManagerEvent) :
    (managerStep st e).chunk_cache_limit = st.chunk_cache_limit := by
  match e with
  | ManagerEvent.response r => exact (handleResponse_props st r).2
  | ManagerEvent.requests cs => exact (requestChunks_preserves cs st).2
  | ManagerEvent.unloads cs => exact (unloadChunks_shrinks cs st).2

theorem managerFold_limit (events : List ManagerEvent) (st : ManagerState) :
    (events.foldl managerStep st).chunk_cache_limit = st.chunk_cache_limit := by
  induction events generalizing st with
  | nil => rfl
  | cons e es ih =>
    rw [List.foldl_cons, ih]
    exact managerStep_limit st e

theorem managerFold_bound (events : List ManagerEvent) (st : ManagerState)
    (h : st.available_render_chunks.length ≤ st.chunk_cache_limit) :
    (events.foldl managerStep st).available_render_chunks.length ≤
      (events.foldl managerStep st).chunk_cache_limit := by
  induction events generalizing st with
  | nil => exact h
  | cons e es ih =>
    rw [List.foldl_cons]
    exact ih _ (managerStep_bound st e h).1

theorem workerHandleRequest_props (w : WorkerState) (req : ChunkRequest) :
    ((workerHandleChunkRequest w req).render_chunk_cache = w.render_chunk_cache ∨
      (workerHandleChunkRequest w req).render_chunk_cache.length ≤ w.cache_limit) ∧
    (workerHandleChunkRequest w req).cache_limit = w.cache_limit := by
  unfold workerHandleChunkRequest
  split
  · exact ⟨Or.inl rfl, rfl⟩
  · split
    · exact ⟨Or.inl rfl, rfl⟩
    · exact ⟨Or.inr (enforceCacheLimit_length_le _ _), rfl⟩

theorem workerProcessMessage_bound (w : WorkerState) (m : Message)
    (h : w.render_chunk_cache.length ≤ w.cache_limit) :
    (workerProcessMessage w m).render_chunk_cache.length ≤
      (workerProcessMessage w m).cache_limit ∧
    (workerProcessMessage w m).cache_limit = w.cache_limit := by
  rcases m with ⟨mt, pl, snd⟩
  rcases mt <;> rcases pl <;> try exact ⟨h, rfl⟩
  rename_i req
  have hred : workerProcessMessage w
      { message_type := MessageType.chunk_request
        payload := MessagePayload.request req, sender := snd } =
      workerHandleChunkRequest w req := rfl
  rw [hred]
  have hp := workerHandleRequest_props w req
  rw [hp.2]
  refine ⟨?_, rfl⟩
  rcases hp.1 with heq | hle
  · rw [heq]; exact h
  · exact hle

theorem workerProcessMessage_limit (w : WorkerState) (m : Message) :
    (workerProcessMessage w m).cache_limit = w.cache_limit := by
  rcases m with ⟨mt, pl, snd⟩
  rcases mt <;> rcases pl <;> try rfl
  rename_i req
  have hred : workerProcessMessage w
      { message_type := MessageType.chunk_request
        payload := MessagePayload.request req, sender := snd } =
      workerHandleChunkRequest w req := rfl
  rw [hred]
  exact (workerHandleRequest_props w req).2

theorem workerFold_limit (msgs : List Message) (w : WorkerState) :
    (msgs.foldl workerProcessMessage w).cache_limit = w.cache_limit := by
  induction msgs generalizing w with
  | nil => rfl
  | cons m ms ih =>
    rw [List.foldl_cons, ih]
    exact workerProcessMessage_limit w m

theorem workerFold_bound (msgs : List Message) (w : WorkerState)
    (h : w.render_chunk_cache.length ≤ w.cache_limit) :
    (msgs.foldl workerProcessMessage w).render_chunk_cache.length ≤
      (msgs.foldl workerProcessMessage w).cache_limit := by
  induction msgs generalizing w with
  | nil => exact h
  | cons m ms ih =>
    rw [List.foldl_cons]
    exact ih _ (workerProcessMessage_bound w m h).1

/-! ### Claim C7 -/

/-- C7: starting from a fresh manager, after any sequence of chunk
responses, request batches and unload batches, the ready set
(`available_render_chunks`) never exceeds `chunk_cache_limit` — every
insertion is immediately followed by eviction of the oldest entries —
and likewise a fresh worker's render chunk cache never exceeds its
cache limit after processing any message sequence. -/
theorem cache_limits_enforced (limit : Nat) (rd ud : Int)
    (events : List ManagerEvent) (wcfg : WorkerConfig) (wlimit : Nat)
    (bus : MessageBus) (msgs : List Message) :
    (events.foldl managerStep (mkManagerState limit rd ud)).available_render_chunks.length ≤
      limit ∧
    (msgs.foldl workerProcessMessage (mkWorkerState wcfg wlimit bus)).render_chunk_cache.length ≤
      wlimit := by
  constructor
  · have h0 : (mkManagerState limit rd ud).available_render_chunks.length ≤
        (mkManagerState limit rd ud).chunk_cache_limit := by
      simp [mkManagerState]
    have hfold := managerFold_bound events (mkManagerState limit rd ud) h0
    have hlimit := managerFold_limit events (mkManagerState limit rd ud)
    rw [hlimit] at hfold
    exact hfold
  · have h0 : (mkWorkerState wcfg wlimit bus).render_chunk_cache.length ≤
        (mkWorkerState wcfg wlimit bus).cache_limit := by
      simp [mkWorkerState]
    have hfold := workerFold_bound msgs (mkWorkerState wcfg wlimit bus) h0
    have hlimit := workerFold_limit msgs (mkWorkerState wcfg wlimit bus)
    rw [hlimit] at hfold
    exact hfold

/-! ### Tile read lemmas (claims C8, C10, C2) -/

/-- `get_tile` only reads: it never touches the bus, the loading or
requested sets, the ready set or the chunk loader. -/
theorem managerGetTile_reads_only (st : ManagerState) (x y : Int) :
    (managerGetTile st x y).2.bus = st.bus ∧
    (managerGetTile st x y).2.loading_chunks = st.loading_chunks ∧
    (managerGetTile st x y).2.requested_chunks = st.requested_chunks ∧
    (managerGetTile st x y).2.available_render_chunks = st.available_render_chunks ∧
    (managerGetTile st x y).2.chunk_loader = st.chunk_loader := by
  unfold managerGetTile
  rcases hc : alookup st.tile_cache (x, y) with _ | t
  · rcases ha : alookup st.available_render_chunks
        (worldToRenderChunk st.render_chunk_size x y) with _ | entry
    · simp [hc, ha]
    · simp [hc, ha]
  · simp [hc]

/-! ### Claim C8 -/

/-- C8: `get_tile` is a total function of the manager state: on a cache
hit it returns the cached tile; when the covering render chunk is ready
it returns a tile addressed at the queried coordinates whose type is
the aggregated value (or the deterministic `water`/`stone` fallback
when absent or falsy); otherwise it returns the `"loading"`
placeholder — and it never consumes from or sends to the worker
(the bus and the bookkeeping sets are untouched). -/
theorem get_tile_always_returns (st : ManagerState) (x y : Int) :
    (∀ t, alookup st.tile_cache (x, y) = some t → (managerGetTile st x y).1 = t) ∧
    (alookup st.tile_cache (x, y) = none →
      ∀ entry, alookup st.available_render_chunks
          (worldToRenderChunk st.render_chunk_size x y) = some entry →
        (managerGetTile st x y).1.x = x ∧ (managerGetTile st x y).1.y = y ∧
        ((∃ s, alookup entry.aggregated_tiles (x, y) = some s ∧ s ≠ "" ∧
            (managerGetTile st x y).1.tile_type = s) ∨
          (managerGetTile st x y).1.tile_type = "water" ∨
          (managerGetTile st x y).1.tile_type = "stone")) ∧
    (alookup st.tile_cache (x, y) = none →
      alookup st.available_render_chunks
          (worldToRenderChunk st.render_chunk_size x y) = none →
      (managerGetTile st x y).1 = placeholderTile ∧
      (managerGetTile st x y).1.tile_type = "loading") ∧
    ((managerGetTile st x y).2.bus = st.bus ∧
      (managerGetTile st x y).2.loading_chunks = st.loading_chunks) := by
  refine ⟨?_, ?_, ?_, (managerGetTile_reads_only st x y).1,
    (managerGetTile_reads_only st x y).2.1⟩
  · intro t ht
    unfold managerGetTile
    simp [ht]
  · intro hc entry hentry
    rcases hagg : alookup entry.aggregated_tiles (x, y) with _ | s
    · by_cases hm : (x + y) % 3 = 0
      · have hres : (managerGetTile st x y).1 =
            { x := x, y := y, tile_type := "water" } := by
          unfold managerGetTile
          simp [hc, hentry, hagg, hm]
        rw [hres]
        exact ⟨rfl, rfl, Or.inr (Or.inl rfl)⟩
      · have hres : (managerGetTile st x y).1 =
            { x := x, y := y, tile_type := "stone" } := by
          unfold managerGetTile
          simp [hc, hentry, hagg, hm]
        rw [hres]
        exact ⟨rfl, rfl, Or.inr (Or.inr rfl)⟩
    · by_cases hso : s = ""
      · by_cases hm : (x + y) % 3 = 0
        · have hres : (managerGetTile st x y).1 =
              { x := x, y := y, tile_type := "water" } := by
            unfold managerGetTile
            simp [hc, hentry, hagg, hso, hm]
          rw [hres]
          exact ⟨rfl, rfl, Or.inr (Or.inl rfl)⟩
        · have hres : (managerGetTile st x y).1 =
              { x := x, y := y, tile_type := "stone" } := by
            unfold managerGetTile
            simp [hc, hentry, hagg, hso, hm]
          rw [hres]
          exact ⟨rfl, rfl, Or.inr (Or.inr rfl)⟩
      · have hres : (managerGetTile st x y).1 =
            { x := x, y := y, tile_type := s } := by
          unfold managerGetTile
          simp [hc, hentry, hagg, hso]
        rw [hres]
        exact ⟨rfl, rfl, Or.inl ⟨s, rfl, hso, rfl⟩⟩
  · intro hc ha
    unfold managerGetTile
    exact ⟨by simp [hc, ha], by simp [hc, ha, placeholderTile]⟩

/-- C8, witness: on a fresh manager every conjunct holds at `(5, 7)`;
in particular the miss path returns the placeholder. -/
theorem get_tile_always_returns_witness :
    alookup (mkManagerState 100 3 5).tile_cache (5, 7) = none ∧
    alookup (mkManagerState 100 3 5).available_render_chunks
      (worldToRenderChunk (mkManagerState 100 3 5).render_chunk_size 5 7) = none ∧
    (managerGetTile (mkManagerState 100 3 5) 5 7).1 = placeholderTile :=
  ⟨by decide, by decide,
   ((get_tile_always_returns (mkManagerState 100 3 5) 5 7).2.2.1
      (by decide) (by decide)).1⟩

/-! ### Claim C10 -/

/-- C10: whenever the queried tile misses the tile cache and its render
chunk is not ready, `get_tile` returns the single shared placeholder
tile built in `__init__`, whose coordinates are `(0, 0)` whatever the
query was and whose kind is `"loading"`; in particular the returned
coordinates differ from any queried coordinates other than `(0, 0)`. -/
theorem get_tile_placeholder_coords (st : ManagerState) (x y : Int)
    (hc : alookup st.tile_cache (x, y) = none)
    (ha : alookup st.available_render_chunks
        (worldToRenderChunk st.render_chunk_size x y) = none) :
    (managerGetTile st x y).1 = placeholderTile ∧
    placeholderTile.x = 0 ∧ placeholderTile.y = 0 ∧
    placeholderTile.tile_type = "loading" ∧
    (¬(x = 0 ∧ y = 0) →
      ((managerGetTile st x y).1.x, (managerGetTile st x y).1.y) ≠ (x, y)) := by
  have hres : (managerGetTile st x y).1 = placeholderTile := by
    unfold managerGetTile
    simp [hc, ha]
  refine ⟨hres, rfl, rfl, rfl, ?_⟩
  intro hxy
  rw [hres]
  intro hpair
  rw [Prod.mk.injEq] at hpair
  exact hxy ⟨by simpa [placeholderTile] using hpair.1.symm,
    by simpa [placeholderTile] using hpair.2.symm⟩

/-- C10, witness at the fresh manager and query `(5, 7)`. -/
theorem get_tile_placeholder_coords_witness :
    alookup (mkManagerState 100 3 5).tile_cache (5, 7) = none ∧
    (managerGetTile (mkManagerState 100 3 5) 5 7).1 = placeholderTile :=
  ⟨by decide,
   (get_tile_placeholder_coords (mkManagerState 100 3 5) 5 7
      (by decide) (by decide)).1⟩

/-! ### Request-path lemmas (claim C2) -/

theorem mem_setAdd_self (l : List (Int × Int)) (c : Int × Int) : c ∈ setAdd l c := by
  unfold setAdd
  split
  · assumption
  · simp

theorem mem_setAdd_of_mem {l : List (Int × Int)} {a : Int × Int} (c : Int × Int)
    (h : a ∈ l) : a ∈ setAdd l c := by
  unfold setAdd
  split
  · exact h
  · simp [h]

theorem not_mem_setAdd {l : List (Int × Int)} {a c : Int × Int}
    (h : a ∉ l) (hne : a ≠ c) : a ∉ setAdd l c := by
  unfold setAdd
  split
  · exact h
  · simp [h, hne]

theorem sendToWorkerNB_props (bus : MessageBus) (m : Message) :
    (sendToWorkerNB bus m).max_queue_size = bus.max_queue_size ∧
    (sendToWorkerNB bus m).to_worker.length ≤ bus.to_worker.length + 1 ∧
    ∀ e ∈ bus.to_worker, e ∈ (sendToWorkerNB bus m).to_worker := by
  unfold sendToWorkerNB sendToWorker
  by_cases h : bus.to_worker.length < bus.max_queue_size
  · rw [if_pos h]
    refine ⟨rfl, ?_, ?_⟩
    · simp
    · intro e he
      simp [he]
  · rw [if_neg h]
    exact ⟨rfl, Nat.le_succ _, fun e he => he⟩

theorem sendToWorkerNB_appends (bus : MessageBus) (m : Message)
    (h : bus.to_worker.length < bus.max_queue_size) :
    (getMessagePriority m, m) ∈ (sendToWorkerNB bus m).to_worker := by
  unfold sendToWorkerNB sendToWorker
  simp [h]

theorem requestChunkStep_props2 (st : ManagerState) (c0 : Int × Int) :
    (requestChunkStep st c0).chunk_loader = st.chunk_loader ∧
    (requestChunkStep st c0).bus.max_queue_size = st.bus.max_queue_size ∧
    (requestChunkStep st c0).bus.to_worker.length ≤ st.bus.to_worker.length + 1 ∧
    (∀ e ∈ st.bus.to_worker, e ∈ (requestChunkStep st c0).bus.to_worker) ∧
    (∀ a ∈ st.loading_chunks, a ∈ (requestChunkStep st c0).loading_chunks) ∧
    (∀ a ∈ st.requested_chunks, a ∈ (requestChunkStep st c0).requested_chunks) := by
  unfold requestChunkStep
  split
  · exact ⟨rfl, rfl, by omega, fun e he => he, fun a ha => ha, fun a ha => ha⟩
  · refine ⟨rfl, (sendToWorkerNB_props st.bus _).1, (sendToWorkerNB_props st.bus _).2.1,
      (sendToWorkerNB_props st.bus _).2.2, ?_, ?_⟩
    · intro a ha
      exact mem_setAdd_of_mem c0 ha
    · intro a ha
      exact mem_setAdd_of_mem c0 ha

theorem requestChunks_mono (cs : List (Int × Int)) (st : ManagerState) :
    (requestChunksInPriorityOrder st cs).chunk_loader = st.chunk_loader ∧
    (requestChunksInPriorityOrder st cs).bus.max_queue_size = st.bus.max_queue_size ∧
    (requestChunksInPriorityOrder st cs).bus.to_worker.length ≤
      st.bus.to_worker.length + cs.length ∧
    (∀ e ∈ st.bus.to_worker, e ∈ (requestChunksInPriorityOrder st cs).bus.to_worker) ∧
    (∀ a ∈ st.loading_chunks, a ∈ (requestChunksInPriorityOrder st cs).loading_chunks) ∧
    (∀ a ∈ st.requested_chunks,
      a ∈ (requestChunksInPriorityOrder st cs).requested_chunks) := by
  induction cs generalizing st with
  | nil =>
    exact ⟨rfl, rfl, Nat.le_add_right _ _, fun e he => he, fun a ha => ha,
      fun a ha => ha⟩
  | cons c0 cs ih =>
    have hstep := requestChunkStep_props2 st c0
    have hih := ih (requestChunkStep st c0)
    have hred : requestChunksInPriorityOrder st (c0 :: cs) =
        requestChunksInPriorityOrder (requestChunkStep st c0) cs := by
      unfold requestChunksInPriorityOrder
      rw [List.foldl_cons]
    rw [hred]
    refine ⟨hih.1.trans hstep.1, hih.2.1.trans hstep.2.1, ?_, ?_, ?_, ?_⟩
    · have := hih.2.2.1
      have := hstep.2.2.1
      simp only [List.length_cons]
      omega
    · intro e he
      exact hih.2.2.2.1 e (hstep.2.2.2.1 e he)
    · intro a ha
      exact hih.2.2.2.2.1 a (hstep.2.2.2.2.1 a ha)
    · intro a ha
      exact hih.2.2.2.2.2 a (hstep.2.2.2.2.2 a ha)

theorem chunkMsgPriority_congr {st st2 : ManagerState} (c : Int × Int)
    (h : st2.chunk_loader = st.chunk_loader) :
    chunkMsgPriority st2 c = chunkMsgPriority st c := by
  unfold chunkMsgPriority getGenerationPrioritySq
  rw [h]

theorem requestChunks_adds (cs : List (Int × Int)) (st : ManagerState)
    (c : Int × Int) (hmem : c ∈ cs)
    (hav : ¬ akeyMem st.available_render_chunks c)
    (hld : c ∉ st.loading_chunks) (hrq : c ∉ st.requested_chunks) :
    c ∈ (requestChunksInPriorityOrder st cs).loading_chunks ∧
    c ∈ (requestChunksInPriorityOrder st cs).requested_chunks ∧
    (st.bus.to_worker.length + cs.length ≤ st.bus.max_queue_size →
      (getMessagePriority (Message.chunkRequestMsg c.1 c.2 (chunkMsgPriority st c)),
        Message.chunkRequestMsg c.1 c.2 (chunkMsgPriority st c)) ∈
        (requestChunksInPriorityOrder st cs).bus.to_worker) := by
  induction cs generalizing st with
  | nil => exact absurd hmem (by simp)
  | cons c0 cs ih =>
    have hred : requestChunksInPriorityOrder st (c0 :: cs) =
        requestChunksInPriorityOrder (requestChunkStep st c0) cs := by
      unfold requestChunksInPriorityOrder
      rw [List.foldl_cons]
    rw [hred]
    by_cases heq : c = c0
    · subst heq
      have hnoskip : ¬ (akeyMem st.available_render_chunks c ∨ c ∈ st.loading_chunks ∨
          c ∈ st.requested_chunks) := by
        push_neg
        exact ⟨hav, hld, hrq⟩
      have hstep : requestChunkStep st c =
          { st with
            bus := sendToWorkerNB st.bus
              (Message.chunkRequestMsg c.1 c.2 (chunkMsgPriority st c))
            requested_chunks := setAdd st.requested_chunks c
            loading_chunks := setAdd st.loading_chunks c
            chunks_requested := st.chunks_requested + 1 } := by
        unfold requestChunkStep
        rw [if_neg hnoskip]
      have hmono := requestChunks_mono cs (requestChunkStep st c)
      refine ⟨?_, ?_, ?_⟩
      · apply hmono.2.2.2.2.1
        rw [hstep]
        exact mem_setAdd_self _ c
      · apply hmono.2.2.2.2.2
        rw [hstep]
        exact mem_setAdd_self _ c
      · intro hroom
        apply hmono.2.2.2.1
        rw [hstep]
        exact sendToWorkerNB_appends st.bus _ (by simp at hroom ⊢; omega)
    · have hmem2 : c ∈ cs := by
        rcases List.mem_cons.mp hmem with h | h
        · exact absurd h heq
        · exact h
      have hstep := requestChunkStep_props2 st c0
      have havail : (requestChunkStep st c0).available_render_chunks =
          st.available_render_chunks := (requestChunkStep_preserves st c0).1
      have hld2 : c ∉ (requestChunkStep st c0).loading_chunks := by
        unfold requestChunkStep
        split
        · exact hld
        · exact not_mem_setAdd hld heq
      have hrq2 : c ∉ (requestChunkStep st c0).requested_chunks := by
        unfold requestChunkStep
        split
        · exact hrq
        · exact not_mem_setAdd hrq heq
      have hav2 : ¬ akeyMem (requestChunkStep st c0).available_render_chunks c := by
        rw [havail]
        exact hav
      have hih := ih (requestChunkStep st c0) hmem2 hav2 hld2 hrq2
      have hprio : chunkMsgPriority (requestChunkStep st c0) c = chunkMsgPriority st c :=
        chunkMsgPriority_congr c hstep.1
      refine ⟨hih.1, hih.2.1, ?_⟩
      intro hroom
      have hlen := hstep.2.2.1
      have hmax := hstep.2.1
      have := hih.2.2 (by simp at hroom; omega)
      rw [hprio] at this
      exact this

/-! ### Claim C2 -/

/-- C2, counterexample: on a fresh manager, the tile at `(0, 0)` is
uncached, its render chunk `(0, 0)` is neither ready nor loading — yet
`get_tile(0, 0)` returns the placeholder *without* enqueueing any
`ChunkRequest` (the worker-bound queue stays empty) and without adding
the chunk to the loading set. -/
theorem get_tile_enqueues_nothing :
    alookup (mkManagerState 100 3 5).tile_cache (0, 0) = none ∧
    alookup (mkManagerState 100 3 5).available_render_chunks (0, 0) = none ∧
    (0, 0) ∉ (mkManagerState 100 3 5).loading_chunks ∧
    (managerGetTile (mkManagerState 100 3 5) 0 0).1 = placeholderTile ∧
    (managerGetTile (mkManagerState 100 3 5) 0 0).2.loading_chunks = [] ∧
    (managerGetTile (mkManagerState 100 3 5) 0 0).2.bus.to_worker = [] := by
  refine ⟨by decide, by decide, by decide, ?_, ?_, ?_⟩ <;> decide

/-- C2, amended: `get_tile` itself never enqueues requests or touches
the loading set; chunk requests are issued by `update_chunks` through
`_request_chunks_in_priority_order`: every chunk of the batch that is
not already available, loading or requested is added to both the
loading and requested sets, and (when the bounded queue cannot
overflow during the batch) a `ChunkRequest` message for it, at the
distance-based priority, is placed on the worker-bound queue. -/
theorem requests_issued_by_update_chunks (st : ManagerState)
    (chunks : List (Int × Int)) (c : Int × Int) (x y : Int)
    (hmem : c ∈ chunks)
    (hav : ¬ akeyMem st.available_render_chunks c)
    (hld : c ∉ st.loading_chunks) (hrq : c ∉ st.requested_chunks) :
    ((managerGetTile st x y).2.loading_chunks = st.loading_chunks ∧
      (managerGetTile st x y).2.bus = st.bus) ∧
    c ∈ (requestChunksInPriorityOrder st chunks).loading_chunks ∧
    c ∈ (requestChunksInPriorityOrder st chunks).requested_chunks ∧
    (st.bus.to_worker.length + chunks.length ≤ st.bus.max_queue_size →
      (getMessagePriority (Message.chunkRequestMsg c.1 c.2 (chunkMsgPriority st c)),
        Message.chunkRequestMsg c.1 c.2 (chunkMsgPriority st c)) ∈
        (requestChunksInPriorityOrder st chunks).bus.to_worker) := by
  have hadds := requestChunks_adds chunks st c hmem hav hld hrq
  exact ⟨⟨(managerGetTile_reads_only st x y).2.1, (managerGetTile_reads_only st x y).1⟩,
    hadds.1, hadds.2.1, hadds.2.2⟩

/-- C2, witness: on the fresh manager, requesting the batch `[(1, 0)]`
puts `(1, 0)` into the loading and requested sets and a normal-priority
request message on the queue. -/
theorem requests_issued_by_update_chunks_witness :
    ((1, 0) ∈ (mkManagerState 100 3 5).loading_chunks → False) ∧
    (1, 0) ∈ (requestChunksInPriorityOrder (mkManagerState 100 3 5)
      [(1, 0)]).loading_chunks :=
  ⟨by decide,
   (requests_issued_by_update_chunks (mkManagerState 100 3 5) [(1, 0)] (1, 0) 0 0
      (by decide) (by decide) (by decide) (by decide)).2.1⟩

end Covenant
